import Mathlib

/-!
Verification of the bookkeeping core: the storage engine (`data_storage.py`),
the record manager (`record_manager.py`) and the statistics engine
(`statistics_engine.py`) are embedded shallowly below, and the behavioural
properties of the specification are proved about the embedding.

Modelling conventions:
* SQLite `REAL` amounts are modelled as exact rationals (`ℚ`); a Python float
  written to a `REAL` column is read back bit-identically, so storage is the
  identity on amounts.
* The TEXT `date` column always holds the canonical zero-padded serialization
  `YYYY-MM-DD HH:MM:SS.ffffff` produced by `strftime` in `save_record` /
  `update_record`; lexicographic string comparison on that form coincides with
  chronological order, so rows carry the `DateTime` value and queries compare
  chronological keys.
* Operations that can raise in Python (datetime construction / timedelta
  arithmetic outside years 1..9999) return `Option`.
-/

/-- Leap-year test, as Python's `datetime` module defines it. -/
def isLeap (y : Nat) : Bool :=
  y % 4 == 0 && (y % 100 != 0 || y % 400 == 0)

/-- Number of days in month `m` (1..12) of year `y`. -/
def daysInMonth (y : Nat) (m : Nat) : Nat :=
  match m with
  | 1 => 31
  | 2 => if isLeap y then 29 else 28
  | 3 => 31
  | 4 => 30
  | 5 => 31
  | 6 => 30
  | 7 => 31
  | 8 => 31
  | 9 => 30
  | 10 => 31
  | 11 => 30
  | 12 => 31
  | _ => 0

/-- Proleptic-Gregorian timestamp: the embedding of Python `datetime.datetime`
(microsecond precision).  Python restricts years to 1..9999; the structure is
total and that restriction is captured by `DateTime.Valid`. -/
structure DateTime where
  year : Nat
  month : Nat
  day : Nat
  hour : Nat
  minute : Nat
  second : Nat
  microsecond : Nat
deriving DecidableEq

/-- The range constraints enforced by Python's `datetime.datetime` constructor. -/
def DateTime.Valid (d : DateTime) : Prop :=
  1 ≤ d.year ∧ d.year ≤ 9999 ∧ 1 ≤ d.month ∧ d.month ≤ 12 ∧
  1 ≤ d.day ∧ d.day ≤ daysInMonth d.year d.month ∧
  d.hour ≤ 23 ∧ d.minute ≤ 59 ∧ d.second ≤ 59 ∧ d.microsecond ≤ 999999

instance : DecidablePred DateTime.Valid := fun d => by
  unfold DateTime.Valid; infer_instance

/-- Chronological key of a timestamp.  On the canonical zero-padded
serializations stored in the `date` column, SQLite's lexicographic string
comparison agrees with comparison of this key. -/
def DateTime.key (d : DateTime) : Nat :=
  (((((d.year * 100 + d.month) * 100 + d.day) * 100 + d.hour) * 100 +
      d.minute) * 100 + d.second) * 1000000 + d.microsecond

/-- The calendar-day triple of a timestamp. -/
def DateTime.ymd (d : DateTime) : Nat × Nat × Nat :=
  (d.year, d.month, d.day)

/-- Midnight (00:00:00.000000) of a calendar day, as built by
`datetime.datetime(year, month, day)`. -/
def midnightT (t : Nat × Nat × Nat) : DateTime :=
  ⟨t.1, t.2.1, t.2.2, 0, 0, 0, 0⟩

/-- Calendar-day successor: the date part of `d + timedelta(days=1)`. -/
def nextDayT : Nat × Nat × Nat → Nat × Nat × Nat
  | (y, m, d) =>
    if d < daysInMonth y m then (y, m, d + 1)
    else if m < 12 then (y, m + 1, 1)
    else (y + 1, 1, 1)

/-- Calendar-day predecessor: the date part of `d - timedelta(days=1)`. -/
def prevDayT : Nat × Nat × Nat → Nat × Nat × Nat
  | (y, m, d) =>
    if 1 < d then (y, m, d - 1)
    else if 1 < m then (y, m - 1, daysInMonth y (m - 1))
    else (y - 1, 12, 31)

/-- `t + timedelta(days=n)` on calendar-day triples. -/
def addDaysT (t : Nat × Nat × Nat) : Nat → Nat × Nat × Nat
  | 0 => t
  | n + 1 => nextDayT (addDaysT t n)

/-- `t - timedelta(days=n)` on calendar-day triples. -/
def subDaysT (t : Nat × Nat × Nat) : Nat → Nat × Nat × Nat
  | 0 => t
  | n + 1 => prevDayT (subDaysT t n)

/-- Days from 0001-01-01 to the start of year `y` (proleptic Gregorian). -/
def daysBeforeYear (y : Nat) : Nat :=
  365 * (y - 1) + (y - 1) / 4 - (y - 1) / 100 + (y - 1) / 400

/-- Days from the start of year `y` to the start of month `m`. -/
def daysBeforeMonth (y m : Nat) : Nat :=
  ((List.range (m - 1)).map (fun k => daysInMonth y (k + 1))).sum

/-- Rata-die index of a calendar day: 0001-01-01 has index 0.  Python's
`date.toordinal()` is this value plus one. -/
def toRD : Nat × Nat × Nat → Nat
  | (y, m, d) => daysBeforeYear y + daysBeforeMonth y m + (d - 1)

/-- Python `date.weekday()`: Monday is 0.  0001-01-01 (rata die 0) is a Monday. -/
def weekdayT (t : Nat × Nat × Nat) : Nat :=
  toRD t % 7

/-- Rata-die index of 9999-12-31, the largest day Python `datetime` represents. -/
def maxRD : Nat :=
  toRD (9999, 12, 31)

/-- `d - timedelta(seconds=1)` for a datetime, borrowing through minute, hour
and day exactly as Python timedelta arithmetic does.  (The code only applies
this to midnights, where the microsecond field is 0 and stays 0.) -/
def minusOneSecond (d : DateTime) : DateTime :=
  if 1 ≤ d.second then { d with second := d.second - 1 }
  else if 1 ≤ d.minute then { d with minute := d.minute - 1, second := 59 }
  else if 1 ≤ d.hour then { d with hour := d.hour - 1, minute := 59, second := 59 }
  else
    let t := prevDayT (d.year, d.month, d.day)
    ⟨t.1, t.2.1, t.2.2, 23, 59, 59, d.microsecond⟩

/-!
### Timestamp parsing: `DataStorage._parse_datetime`

Python's `datetime.strptime` compiles the format into a regular expression;
the combinators below reproduce the relevant fragment: `%Y` is exactly four
digits, `%m`/`%d` are one or two digits in range (the two-digit alternative is
preferred), `%H`/`%M`/`%S` are one or two digits, `%f` is one to six digits
right-padded with zeros, a space in the format matches a whitespace run, and
the whole input must be consumed.  The parsed values are then range-checked by
the `datetime` constructor.
-/

/-- Numeric value of an ASCII digit. -/
def digVal (c : Char) : Nat :=
  c.toNat - 48

/-- Python regex `\s` (the ASCII cases). -/
def pyWs (c : Char) : Bool :=
  c = ' ' || c = '\t' || c = '\n' || c = '\r' || c = '\x0b' || c = '\x0c'

/-- `%Y`: exactly four digits. -/
def parse4 : List Char → Option (Nat × List Char)
  | c1 :: c2 :: c3 :: c4 :: rest =>
    if c1.isDigit && c2.isDigit && c3.isDigit && c4.isDigit then
      some (((digVal c1 * 10 + digVal c2) * 10 + digVal c3) * 10 + digVal c4, rest)
    else none
  | _ => none

/-- One- or two-digit numeric field.  The two-digit alternative is preferred
when it satisfies `ok2`; otherwise a single digit satisfying `ok1` is taken.
This matches the regex alternations for `%m %d %H %M %S`: the character
following each of those fields in the formats at hand is never a digit, so no
other backtracking branch can succeed. -/
def parse2or1 (ok2 ok1 : Nat → Bool) : List Char → Option (Nat × List Char)
  | c1 :: c2 :: rest =>
    if c1.isDigit && c2.isDigit then
      let v := digVal c1 * 10 + digVal c2
      if ok2 v then some (v, rest)
      else if ok1 (digVal c1) then some (digVal c1, c2 :: rest)
      else none
    else if c1.isDigit && ok1 (digVal c1) then some (digVal c1, c2 :: rest)
    else none
  | [c1] => if c1.isDigit && ok1 (digVal c1) then some (digVal c1, []) else none
  | [] => none

/-- A literal character of the format. -/
def parseLit (ch : Char) : List Char → Option (List Char)
  | c :: rest => if c = ch then some rest else none
  | [] => none

/-- A whitespace run: a space in the format matches `\s+`. -/
def parseWs : List Char → Option (List Char)
  | c :: rest => if pyWs c then some (rest.dropWhile pyWs) else none
  | [] => none

/-- Digit string read in base 10. -/
def natOfDigits (l : List Char) : Nat :=
  l.foldl (fun a c => a * 10 + digVal c) 0

/-- `%f`: one to six digits, right-padded with zeros to microseconds. -/
def parseMicro (l : List Char) : Option (Nat × List Char) :=
  let ds := (l.takeWhile Char.isDigit).take 6
  if ds.isEmpty then none
  else some (natOfDigits ds * 10 ^ (6 - ds.length), l.drop ds.length)

/-- The `%Y-%m-%d` / whitespace / `%H:%M:%S` part shared by both formats. -/
def parseStamp (l : List Char) :
    Option ((Nat × Nat × Nat × Nat × Nat × Nat) × List Char) := do
  let (y, l) ← parse4 l
  let l ← parseLit '-' l
  let (mo, l) ← parse2or1 (fun v => decide (1 ≤ v) && decide (v ≤ 12))
    (fun v => decide (1 ≤ v)) l
  let l ← parseLit '-' l
  let (da, l) ← parse2or1 (fun v => decide (1 ≤ v) && decide (v ≤ 31))
    (fun v => decide (1 ≤ v)) l
  let l ← parseWs l
  let (h, l) ← parse2or1 (fun v => decide (v ≤ 23)) (fun _ => true) l
  let l ← parseLit ':' l
  let (mi, l) ← parse2or1 (fun v => decide (v ≤ 59)) (fun _ => true) l
  let l ← parseLit ':' l
  let (s, l) ← parse2or1 (fun v => decide (v ≤ 61)) (fun _ => true) l
  pure ((y, mo, da, h, mi, s), l)

/-- The `datetime` constructor: range-checks every field.  This is where
out-of-calendar days such as Feb 30, and the second values 60/61 admitted by
the `%S` pattern, are rejected with `ValueError`. -/
def ctorCheck (y mo da h mi s us : Nat) : Option DateTime :=
  if 1 ≤ y ∧ y ≤ 9999 ∧ 1 ≤ mo ∧ mo ≤ 12 ∧ 1 ≤ da ∧ da ≤ daysInMonth y mo ∧
      h ≤ 23 ∧ mi ≤ 59 ∧ s ≤ 59 ∧ us ≤ 999999 then
    some ⟨y, mo, da, h, mi, s, us⟩
  else none

/-- `datetime.strptime(s, "%Y-%m-%d %H:%M:%S")`; `none` models `ValueError`. -/
def strptimeSec (str : String) : Option DateTime := do
  let ((y, mo, da, h, mi, s), l) ← parseStamp str.toList
  if l.isEmpty then ctorCheck y mo da h mi s 0 else none

/-- `datetime.strptime(s, "%Y-%m-%d %H:%M:%S.%f")`; `none` models `ValueError`. -/
def strptimeFrac (str : String) : Option DateTime := do
  let ((y, mo, da, h, mi, s), l) ← parseStamp str.toList
  let l ← parseLit '.' l
  let (us, l) ← parseMicro l
  if l.isEmpty then ctorCheck y mo da h mi s us else none

/-- A value read from the TEXT `date` column.  SQLite is dynamically typed, so
besides NULL and strings any other value may come back.  For every non-null,
non-string value `v`, Python's `'.' in v` raises `TypeError` (falsy values
such as `0` short-circuit at `not date_str` first); both paths end in the
current-time fallback, so one constructor covers all non-string values. -/
inductive DateCell
  | null
  | str (s : String)
  | nonstr
deriving DecidableEq

/-- `DataStorage._parse_datetime`.  Total: every exception path of the Python
code (`ValueError` from `strptime`, `TypeError` from `in` on a non-string) is
caught and replaced by `now`. -/
def parse_datetime (cell : DateCell) (now : DateTime) : DateTime :=
  match cell with
  | DateCell.null => now
  | DateCell.nonstr => now
  | DateCell.str s =>
    if s = "" then now
    else if s.toList.contains '.' then (strptimeFrac s).getD now
    else (strptimeSec s).getD now

/-- Zero-padded two-digit field (`%m %d %H %M %S`), for `n ≤ 99`. -/
def fmt2 (n : Nat) : List Char :=
  [Char.ofNat (48 + n / 10), Char.ofNat (48 + n % 10)]

/-- Zero-padded four-digit field (`%Y`), for `n ≤ 9999`. -/
def fmt4 (n : Nat) : List Char :=
  [Char.ofNat (48 + n / 1000), Char.ofNat (48 + n / 100 % 10),
   Char.ofNat (48 + n / 10 % 10), Char.ofNat (48 + n % 10)]

/-- Zero-padded six-digit field (`%f`), for `n ≤ 999999`. -/
def fmt6 (n : Nat) : List Char :=
  [Char.ofNat (48 + n / 100000), Char.ofNat (48 + n / 10000 % 10),
   Char.ofNat (48 + n / 1000 % 10), Char.ofNat (48 + n / 100 % 10),
   Char.ofNat (48 + n / 10 % 10), Char.ofNat (48 + n % 10)]

/-- `d.strftime("%Y-%m-%d %H:%M:%S.%f")`: the canonical serialized form the
storage engine writes to the `date` column. -/
def fmtFull (d : DateTime) : String :=
  String.mk (fmt4 d.year ++ '-' :: fmt2 d.month ++ '-' :: fmt2 d.day ++
    ' ' :: fmt2 d.hour ++ ':' :: fmt2 d.minute ++ ':' :: fmt2 d.second ++
    '.' :: fmt6 d.microsecond)

/-!
### SQLite `LIKE`

`search_records` filters with `description LIKE ? OR category LIKE ?` against
the pattern `f"%keyword%"`.  SQLite's default `LIKE` (no ESCAPE clause) treats
`%` as "any sequence", `_` as "any one character", and compares the remaining
characters case-insensitively for ASCII letters only.
-/

/-- SQLite's default `LIKE` case folding: ASCII upper-case letters only. -/
def foldAscii (c : Char) : Char :=
  if 'A' ≤ c ∧ c ≤ 'Z' then Char.ofNat (c.toNat + 32) else c

/-- `LIKE` matching with an explicit recursion bound: every step consumes one
unit of fuel and shrinks `|pattern| + |text|`, so `|pattern| + |text| + 1`
units always reach a base case. -/
def likeAux : Nat → List Char → List Char → Bool
  | _, [], [] => true
  | fuel + 1, '%' :: ps, s =>
    likeAux fuel ps s ||
      (match s with
       | [] => false
       | _ :: s2 => likeAux fuel ('%' :: ps) s2)
  | fuel + 1, c :: ps, d :: s =>
    if c = '_' then likeAux fuel ps s
    else foldAscii c == foldAscii d && likeAux fuel ps s
  | _, _, _ => false

/-- SQLite `text LIKE pattern` (default behaviour, no ESCAPE). -/
def likeMatch (pat s : List Char) : Bool :=
  likeAux (pat.length + s.length + 1) pat s

/-- The pattern `f"%{keyword}%"` built by `search_records`. -/
def kwPattern (kw : String) : List Char :=
  '%' :: kw.toList ++ ['%']

/-!
### Data model and storage engine (`record.py`, `data_storage.py`)
-/

/-- The embedding of `record.RecordType`. -/
inductive RecordType
  | income
  | expense
deriving DecidableEq

/-- The embedding of `record.Record`; `id` is `none` before persistence. -/
structure Record where
  id : Option Nat
  amount : ℚ
  category : String
  description : String
  type : RecordType
  date : DateTime
deriving DecidableEq

/-- One row of the `records` table.  The `date` column is TEXT holding
`fmtFull date`; the row carries the parsed value (see the header comment). -/
structure Row where
  id : Nat
  amount : ℚ
  category : String
  description : String
  type : RecordType
  date : DateTime
deriving DecidableEq

/-- The `records` table plus the autoincrement counter: SQLite hands out
`lastrowid` values strictly above every id it has handed out before. -/
structure DB where
  nextId : Nat
  rows : List Row
deriving DecidableEq

/-- `ORDER BY date DESC` as a relation on rows. -/
def rowGE (a b : Row) : Prop :=
  DateTime.key b.date ≤ DateTime.key a.date

instance : DecidableRel rowGE := fun _ _ => Nat.decLe _ _

instance : IsTotal Row rowGE := ⟨fun _ _ => Nat.le_total _ _⟩

instance : IsTrans Row rowGE := ⟨fun _ _ _ h1 h2 => Nat.le_trans h2 h1⟩

namespace DataStorage

/-- `save_record`: INSERT the fields, return `lastrowid`. -/
def save_record (db : DB) (r : Record) : DB × Nat :=
  (⟨db.nextId + 1,
    db.rows ++ [⟨db.nextId, r.amount, r.category, r.description, r.type, r.date⟩]⟩,
   db.nextId)

/-- The row-to-entity construction shared by `get_record`, `get_all_records`
and `search_records`. -/
def toRecord (row : Row) : Record :=
  ⟨some row.id, row.amount, row.category, row.description, row.type, row.date⟩

/-- `get_record`: SELECT by primary key, `none` when no row matches. -/
def get_record (db : DB) (record_id : Nat) : Option Record :=
  (db.rows.find? (fun row => row.id == record_id)).map toRecord

/-- The optional date-range conditions `date >= ?` / `date <= ?` (SQL compares
the canonical serializations, i.e. chronological keys). -/
def inDateRange (startD endD : Option DateTime) (row : Row) : Bool :=
  (match startD with
   | none => true
   | some a => decide (a.key ≤ row.date.key)) &&
  (match endD with
   | none => true
   | some b => decide (row.date.key ≤ b.key))

/-- `get_all_records`: SELECT with optional date bounds, ORDER BY date DESC. -/
def get_all_records (db : DB) (startD endD : Option DateTime) : List Record :=
  ((db.rows.filter (inDateRange startD endD)).insertionSort rowGE).map toRecord

/-- The keyword clause `(description LIKE ? OR category LIKE ?)`; skipped for
a falsy (absent or empty) keyword. -/
def kwCond (keyword : Option String) (row : Row) : Bool :=
  match keyword with
  | none => true
  | some k =>
    if k = "" then true
    else likeMatch (kwPattern k) row.description.toList ||
      likeMatch (kwPattern k) row.category.toList

/-- The `category = ?` clause; skipped for a falsy category. -/
def catCond (category : Option String) (row : Row) : Bool :=
  match category with
  | none => true
  | some c => if c = "" then true else row.category == c

/-- The `amount >= ?` clause (`is not None` check, so 0 is applied). -/
def minCond (minAmount : Option ℚ) (row : Row) : Bool :=
  match minAmount with
  | none => true
  | some a => decide (a ≤ row.amount)

/-- The `amount <= ?` clause (`is not None` check). -/
def maxCond (maxAmount : Option ℚ) (row : Row) : Bool :=
  match maxAmount with
  | none => true
  | some b => decide (row.amount ≤ b)

/-- The `type = ?` clause; enum members are always truthy. -/
def typeCond (rt : Option RecordType) (row : Row) : Bool :=
  match rt with
  | none => true
  | some t => row.type == t

/-- The WHERE clause of `search_records`: the conjunction of the optional
clauses above (Python truthiness decides which are attached). -/
def searchCond (keyword category : Option String) (startD endD : Option DateTime)
    (minAmount maxAmount : Option ℚ) (rt : Option RecordType) (row : Row) : Bool :=
  kwCond keyword row && catCond category row && inDateRange startD endD row &&
    minCond minAmount row && maxCond maxAmount row && typeCond rt row

/-- `search_records`: conjunctive optional filters, ORDER BY date DESC. -/
def search_records (db : DB) (keyword category : Option String)
    (startD endD : Option DateTime) (minAmount maxAmount : Option ℚ)
    (rt : Option RecordType) : List Record :=
  ((db.rows.filter
      (searchCond keyword category startD endD minAmount maxAmount rt)).insertionSort
    rowGE).map toRecord

/-- `update_record`: a falsy id (`None` or `0`) fails immediately; otherwise
every row with that id is overwritten and success is "some row matched". -/
def update_record (db : DB) (r : Record) : DB × Bool :=
  match r.id with
  | none => (db, false)
  | some rid =>
    if rid = 0 then (db, false)
    else
      (⟨db.nextId,
        db.rows.map (fun row =>
          if row.id = rid then
            ⟨row.id, r.amount, r.category, r.description, r.type, r.date⟩
          else row)⟩,
       db.rows.any (fun row => row.id == rid))

/-- `delete_record`: DELETE by id, success is "some row matched". -/
def delete_record (db : DB) (record_id : Nat) : DB × Bool :=
  (⟨db.nextId, db.rows.filter (fun row => row.id != record_id)⟩,
   db.rows.any (fun row => row.id == record_id))

end DataStorage

/-!
### Record manager (`record_manager.py`)
-/

namespace RecordManager

/-- `add_record`: build the entity, delegate to the storage engine. -/
def add_record (db : DB) (amount : ℚ) (category description : String)
    (record_type : RecordType) (date : DateTime) : DB × Nat :=
  DataStorage.save_record db ⟨none, amount, category, description, record_type, date⟩

/-- `update_record`: read-before-write — fetch the record, overwrite its
fields in memory, persist through the storage update path; if the fetch comes
back absent, return `False` without touching storage. -/
def update_record (db : DB) (record_id : Nat) (amount : ℚ)
    (category description : String) (record_type : RecordType)
    (date : DateTime) : DB × Bool :=
  match DataStorage.get_record db record_id with
  | none => (db, false)
  | some r =>
    DataStorage.update_record db
      { r with amount := amount, category := category,
               description := description, type := record_type, date := date }

/-- `delete_record`: pass-through. -/
def delete_record (db : DB) (record_id : Nat) : DB × Bool :=
  DataStorage.delete_record db record_id

end RecordManager

/-!
### Statistics engine (`statistics_engine.py`)

`none` models the Python call raising: `datetime` construction outside years
1..9999 raises `ValueError`, and timedelta arithmetic whose result leaves
`datetime.min .. datetime.max` raises `OverflowError`.
-/

/-- The summary dictionary built by `_calculate_summary`. -/
structure Summary where
  total_income : ℚ
  total_expense : ℚ
  balance : ℚ
deriving DecidableEq

namespace StatisticsEngine

/-- `_calculate_summary`: one linear pass accumulating the two totals. -/
def calculate_summary (records : List Record) : Summary :=
  let p := records.foldl
    (fun (acc : ℚ × ℚ) r =>
      if r.type = RecordType.income then (acc.1 + r.amount, acc.2)
      else (acc.1, acc.2 + r.amount))
    (0, 0)
  ⟨p.1, p.2, p.1 - p.2⟩

/-- `get_daily_summary`: bounds are midnight of the date's day and
`midnight + timedelta(days=1) - timedelta(seconds=1)`.  The intermediate
addition overflows exactly when the day is 9999-12-31. -/
def get_daily_summary (date : DateTime) (db : DB) : Option Summary :=
  if (date.year, date.month, date.day) = (9999, 12, 31) then none
  else
    let start := midnightT date.ymd
    let stop := minusOneSecond (midnightT (nextDayT date.ymd))
    some (calculate_summary (DataStorage.get_all_records db (some start) (some stop)))

/-- `get_weekly_summary`: Monday of the date's week, then
`monday + timedelta(days=7) - timedelta(seconds=1)`; the addition overflows
when it passes 9999-12-31.  (`date - timedelta(days=date.weekday())` never
underflows: the weekday is the rata-die index mod 7.) -/
def get_weekly_summary (date : DateTime) (db : DB) : Option Summary :=
  let mon := subDaysT date.ymd (weekdayT date.ymd)
  if maxRD < toRD mon + 7 then none
  else
    let start := midnightT mon
    let stop := minusOneSecond (midnightT (addDaysT mon 7))
    some (calculate_summary (DataStorage.get_all_records db (some start) (some stop)))

/-- `get_monthly_summary`: first instant of the month through the first
instant of the following month minus one second; the December branch builds
January of `year + 1`. -/
def get_monthly_summary (year month : Int) (db : DB) : Option Summary :=
  if 1 ≤ year ∧ year ≤ 9999 ∧ 1 ≤ month ∧ month ≤ 12 then
    let start := midnightT (year.toNat, month.toNat, 1)
    if month = 12 then
      if year + 1 ≤ 9999 then
        some (calculate_summary (DataStorage.get_all_records db (some start)
          (some (minusOneSecond (midnightT (year.toNat + 1, 1, 1))))))
      else none
    else
      some (calculate_summary (DataStorage.get_all_records db (some start)
        (some (minusOneSecond (midnightT (year.toNat, month.toNat + 1, 1))))))
  else none

/-- Body of the month-normalisation loop of `get_trend_data`
(`while month <= 0: month += 12; year -= 1`), with an explicit iteration
bound: the loop runs fewer than `(1 - month).toNat` + 1 times. -/
def monthLoopAux : Nat → Int → Int → Int × Int
  | 0, y, m => (y, m)
  | fuel + 1, y, m => if m ≤ 0 then monthLoopAux fuel (y - 1) (m + 12) else (y, m)

/-- The month-normalisation loop itself. -/
def monthLoop (y m : Int) : Int × Int :=
  monthLoopAux (1 - m).toNat y m

/-- One element of the trend series: period label and the two totals. -/
structure TrendPoint where
  period : String
  income : ℚ
  expense : ℚ
deriving DecidableEq

/-- The `"%m-%d"` label. -/
def fmtMD (t : Nat × Nat × Nat) : String :=
  String.mk (fmt2 t.2.1 ++ '-' :: fmt2 t.2.2)

/-- One iteration of the `get_trend_data` loop, at back-offset `i`. -/
def trendEntry (today : DateTime) (db : DB) (period : String) (i : Nat) :
    Option TrendPoint :=
  if period = "day" then
    if toRD today.ymd < i then none
    else
      let t := subDaysT today.ymd i
      let date : DateTime :=
        ⟨t.1, t.2.1, t.2.2, today.hour, today.minute, today.second, today.microsecond⟩
      match get_daily_summary date db with
      | none => none
      | some s => some ⟨fmtMD t, s.total_income, s.total_expense⟩
  else if period = "week" then
    if toRD today.ymd < weekdayT today.ymd + 7 * i then none
    else
      let ws := subDaysT today.ymd (weekdayT today.ymd + 7 * i)
      let wsDate : DateTime :=
        ⟨ws.1, ws.2.1, ws.2.2, today.hour, today.minute, today.second, today.microsecond⟩
      match get_weekly_summary wsDate db with
      | none => none
      | some s =>
        some ⟨fmtMD ws ++ "~" ++ fmtMD (addDaysT ws 6), s.total_income, s.total_expense⟩
  else
    let p := monthLoop (today.year : Int) ((today.month : Int) - (i : Int))
    match get_monthly_summary p.1 p.2 db with
    | none => none
    | some s =>
      some ⟨toString p.1 ++ "-" ++ String.mk (fmt2 p.2.toNat),
        s.total_income, s.total_expense⟩

/-- `get_trend_data`: one entry per `i = count-1, …, 0`; `none` models the
loop aborting with an exception when a period leaves the representable
range. -/
def get_trend_data (today : DateTime) (db : DB) (period : String) (count : Nat) :
    Option (List TrendPoint) :=
  ((List.range count).reverse).mapM (trendEntry today db period)

end StatisticsEngine

/-!
### Lemmas about the storage layer
-/

/-- `ORDER BY date DESC` as a relation on returned entities. -/
def recGE (a b : Record) : Prop :=
  DateTime.key b.date ≤ DateTime.key a.date

theorem sorted_map_toRecord {l : List Row} (h : l.Sorted rowGE) :
    (l.map DataStorage.toRecord).Sorted recGE :=
  List.pairwise_map.mpr (h.imp fun hab => hab)

theorem inDateRange_iff (startD endD : Option DateTime) (row : Row) :
    DataStorage.inDateRange startD endD row = true ↔
      (∀ a, startD = some a → DateTime.key a ≤ DateTime.key row.date) ∧
      (∀ b, endD = some b → DateTime.key row.date ≤ DateTime.key b) := by
  cases startD <;> cases endD <;> simp [DataStorage.inDateRange]

theorem mem_get_all_records {db : DB} {startD endD : Option DateTime} {r : Record} :
    r ∈ DataStorage.get_all_records db startD endD ↔
      ∃ row ∈ db.rows, DataStorage.inDateRange startD endD row = true ∧
        r = DataStorage.toRecord row := by
  unfold DataStorage.get_all_records
  simp only [List.mem_map, List.mem_insertionSort, List.mem_filter]
  constructor
  · rintro ⟨row, ⟨hmem, hrange⟩, hr⟩
    exact ⟨row, hmem, hrange, hr.symm⟩
  · rintro ⟨row, hmem, hrange, hr⟩
    exact ⟨row, ⟨hmem, hrange⟩, hr.symm⟩

theorem mem_search_records {db : DB} {keyword category : Option String}
    {startD endD : Option DateTime} {minA maxA : Option ℚ} {rt : Option RecordType}
    {r : Record} :
    r ∈ DataStorage.search_records db keyword category startD endD minA maxA rt ↔
      ∃ row ∈ db.rows,
        DataStorage.searchCond keyword category startD endD minA maxA rt row = true ∧
        r = DataStorage.toRecord row := by
  unfold DataStorage.search_records
  simp only [List.mem_map, List.mem_insertionSort, List.mem_filter]
  constructor
  · rintro ⟨row, ⟨hmem, hcond⟩, hr⟩
    exact ⟨row, hmem, hcond, hr.symm⟩
  · rintro ⟨row, hmem, hcond, hr⟩
    exact ⟨row, ⟨hmem, hcond⟩, hr.symm⟩

/-- **C7**: every sequence returned by `list` (`get_all_records`) and by
`search` (`search_records`) is ordered by date descending, and `list` with
optional bounds returns exactly the records whose date lies in the inclusive
range, each bound independently optional. -/
theorem list_search_ordered_and_ranged (db : DB) (startD endD : Option DateTime)
    (keyword category : Option String) (minA maxA : Option ℚ)
    (rt : Option RecordType) :
    (DataStorage.get_all_records db startD endD).Sorted recGE ∧
    (DataStorage.search_records db keyword category startD endD minA maxA rt).Sorted
      recGE ∧
    (∀ r : Record,
      r ∈ DataStorage.get_all_records db startD endD ↔
        ∃ row ∈ db.rows, r = DataStorage.toRecord row ∧
          (∀ a, startD = some a → DateTime.key a ≤ DateTime.key row.date) ∧
          (∀ b, endD = some b → DateTime.key row.date ≤ DateTime.key b)) := by
  refine ⟨sorted_map_toRecord (List.sorted_insertionSort rowGE _),
    sorted_map_toRecord (List.sorted_insertionSort rowGE _), fun r => ?_⟩
  rw [mem_get_all_records]
  constructor
  · rintro ⟨row, hmem, hrange, hr⟩
    exact ⟨row, hmem, hr, (inDateRange_iff startD endD row).mp hrange⟩
  · rintro ⟨row, hmem, hr, hbounds⟩
    exact ⟨row, hmem, (inDateRange_iff startD endD row).mpr hbounds, hr⟩

/-- After the UPDATE of `update_record`, the first row with the target id
carries exactly the new field values. -/
theorem find_after_update (l : List Row) (rid : Nat) (a : ℚ) (c d' : String)
    (t : RecordType) (dt : DateTime) (hex : ∃ row ∈ l, row.id = rid) :
    (l.map fun row =>
        if row.id = rid then (⟨row.id, a, c, d', t, dt⟩ : Row) else row).find?
      (fun row => row.id == rid) = some ⟨rid, a, c, d', t, dt⟩ := by
  induction l with
  | nil => simp at hex
  | cons row l ih =>
    by_cases h : row.id = rid
    · simp [List.find?, h]
    · obtain ⟨row2, hmem, hid⟩ := hex
      rcases List.mem_cons.mp hmem with heq | hmem2
      · exact absurd (heq ▸ hid) h
      · have hfalse :
            ((if row.id = rid then (⟨row.id, a, c, d', t, dt⟩ : Row) else row).id
              == rid) = false := by
          rw [if_neg h]
          simpa using h
        simp only [List.map_cons, List.find?, hfalse]
        exact ih ⟨row2, hmem2, hid⟩

/-- **C8**: the manager's update is read-before-write: an absent target makes
it return false with the state untouched, and whenever it returns true a
subsequent `get_record` yields exactly the new field values. -/
theorem manager_update_read_before_write (db : DB) (record_id : Nat) (amount : ℚ)
    (category description : String) (rtype : RecordType) (date : DateTime) :
    (DataStorage.get_record db record_id = none →
      RecordManager.update_record db record_id amount category description rtype date
        = (db, false)) ∧
    (∀ db2,
      RecordManager.update_record db record_id amount category description rtype date
          = (db2, true) →
      DataStorage.get_record db2 record_id =
        some ⟨some record_id, amount, category, description, rtype, date⟩) := by
  constructor
  · intro hnone
    unfold RecordManager.update_record
    rw [hnone]
  · intro db2 htrue
    cases hget : DataStorage.get_record db record_id with
    | none =>
      unfold RecordManager.update_record at htrue
      rw [hget] at htrue
      simp at htrue
    | some r =>
      have hrowEx : ∃ row, db.rows.find? (fun row => row.id == record_id) = some row ∧
          r = DataStorage.toRecord row := by
        unfold DataStorage.get_record at hget
        cases hfind : db.rows.find? (fun row => row.id == record_id) with
        | none => rw [hfind] at hget; simp at hget
        | some row =>
          rw [hfind] at hget
          rw [Option.map_some'] at hget
          exact ⟨row, rfl, (Option.some.inj hget).symm⟩
      obtain ⟨row, hfind, hr⟩ := hrowEx
      have hrowid : row.id = record_id := by
        simpa using List.find?_some hfind
      have hid : r.id = some record_id := by
        rw [hr]
        show some row.id = some record_id
        rw [hrowid]
      have hstep : RecordManager.update_record db record_id amount category
          description rtype date =
          DataStorage.update_record db
            ⟨r.id, amount, category, description, rtype, date⟩ := by
        unfold RecordManager.update_record
        rw [hget]
      rw [hstep] at htrue
      unfold DataStorage.update_record at htrue
      simp only [hid] at htrue
      by_cases h0 : record_id = 0
      · rw [if_pos h0] at htrue
        simp at htrue
      · rw [if_neg h0] at htrue
        rw [Prod.mk.injEq] at htrue
        have hdb2 := htrue.1.symm
        have hex : ∃ rw2 ∈ db.rows, rw2.id = record_id :=
          ⟨row, List.mem_of_find?_eq_some hfind, hrowid⟩
        rw [hdb2]
        unfold DataStorage.get_record
        rw [find_after_update db.rows record_id amount category description rtype
          date hex]
        rfl

/-- **C9**: delete is final (a successful delete makes the id unreachable via
`get_record` and `get_all_records`), and not-found is signalled by return
value: absent ids make `get_record` return `none` and `delete_record` /
the manager's `update_record` return false, never an exception. -/
theorem delete_final_and_not_found (db : DB) (record_id : Nat) :
    (∀ db2, DataStorage.delete_record db record_id = (db2, true) →
      DataStorage.get_record db2 record_id = none ∧
      ∀ (startD endD : Option DateTime) (r : Record),
        r ∈ DataStorage.get_all_records db2 startD endD → r.id ≠ some record_id) ∧
    ((∀ row ∈ db.rows, row.id ≠ record_id) →
      DataStorage.get_record db record_id = none ∧
      DataStorage.delete_record db record_id = (db, false) ∧
      ∀ (amount : ℚ) (category description : String) (rtype : RecordType)
        (date : DateTime),
        RecordManager.update_record db record_id amount category description rtype
          date = (db, false)) := by
  constructor
  · intro db2 hdel
    have hdb2 : db2 = ⟨db.nextId, db.rows.filter fun row => row.id != record_id⟩ :=
      ((Prod.mk.injEq _ _ _ _).mp hdel).1.symm
    have hnotin : ∀ row ∈ db2.rows, row.id ≠ record_id := by
      intro row hmem
      rw [hdb2] at hmem
      have := (List.mem_filter.mp hmem).2
      simpa using this
    constructor
    · unfold DataStorage.get_record
      rw [List.find?_eq_none.mpr (fun row hmem => by simpa using hnotin row hmem)]
      rfl
    · intro startD endD r hr
      obtain ⟨row, hmem, _, hrrow⟩ := mem_get_all_records.mp hr
      rw [hrrow]
      intro hcontra
      exact hnotin row hmem (by simpa [DataStorage.toRecord] using hcontra)
  · intro habsent
    have hget : DataStorage.get_record db record_id = none := by
      unfold DataStorage.get_record
      rw [List.find?_eq_none.mpr (fun row hmem => by simpa using habsent row hmem)]
      rfl
    refine ⟨hget, ?_, ?_⟩
    · unfold DataStorage.delete_record
      have h1 : db.rows.filter (fun row => row.id != record_id) = db.rows :=
        List.filter_eq_self.mpr fun row hmem => by simpa using habsent row hmem
      have h2 : db.rows.any (fun row => row.id == record_id) = false := by
        rw [List.any_eq_false]
        intro row hmem
        simpa using habsent row hmem
      rw [h1, h2]
    · intro amount category description rtype date
      unfold RecordManager.update_record
      rw [hget]

/-- **C10**: an empty-string keyword or category is treated as an omitted
filter (Python truthiness), so it restricts nothing; with both supplied empty
and no other filters the search returns exactly `get_all_records`. -/
theorem empty_string_filters_ignored (db : DB) (keyword category : Option String)
    (startD endD : Option DateTime) (minA maxA : Option ℚ) (rt : Option RecordType) :
    DataStorage.search_records db (some "") category startD endD minA maxA rt =
      DataStorage.search_records db none category startD endD minA maxA rt ∧
    DataStorage.search_records db keyword (some "") startD endD minA maxA rt =
      DataStorage.search_records db keyword none startD endD minA maxA rt ∧
    DataStorage.search_records db (some "") (some "") none none none none none =
      DataStorage.get_all_records db none none := by
  refine ⟨?_, ?_, ?_⟩
  · unfold DataStorage.search_records
    have : DataStorage.searchCond (some "") category startD endD minA maxA rt =
        DataStorage.searchCond none category startD endD minA maxA rt := by
      funext row
      simp [DataStorage.searchCond, DataStorage.kwCond]
    rw [this]
  · unfold DataStorage.search_records
    have : DataStorage.searchCond keyword (some "") startD endD minA maxA rt =
        DataStorage.searchCond keyword none startD endD minA maxA rt := by
      funext row
      simp [DataStorage.searchCond, DataStorage.catCond]
    rw [this]
  · unfold DataStorage.search_records DataStorage.get_all_records
    have : DataStorage.searchCond (some "") (some "") none none none none none =
        DataStorage.inDateRange none none := by
      funext row
      simp [DataStorage.searchCond, DataStorage.kwCond, DataStorage.catCond,
        DataStorage.minCond, DataStorage.maxCond, DataStorage.typeCond,
        DataStorage.inDateRange]
    rw [this]

/-!
### C1: robustness of timestamp parsing
-/

theorem ctorCheck_valid {y mo da h mi s us : Nat} {d : DateTime}
    (hd : ctorCheck y mo da h mi s us = some d) : d.Valid := by
  unfold ctorCheck at hd
  split at hd
  · rename_i hcond
    cases hd
    exact hcond
  · cases hd

theorem strptimeFrac_valid {str : String} {d : DateTime}
    (h : strptimeFrac str = some d) : d.Valid := by
  unfold strptimeFrac at h
  simp only [Option.bind_eq_bind, Option.bind_eq_some] at h
  obtain ⟨⟨⟨y, mo, da, hh, mi, ss⟩, l⟩, hps, h⟩ := h
  obtain ⟨l2, hlit, h⟩ := h
  obtain ⟨⟨us, l3⟩, hmicro, h⟩ := h
  split at h
  · exact ctorCheck_valid h
  · cases h

theorem strptimeSec_valid {str : String} {d : DateTime}
    (h : strptimeSec str = some d) : d.Valid := by
  unfold strptimeSec at h
  simp only [Option.bind_eq_bind, Option.bind_eq_some] at h
  obtain ⟨⟨⟨y, mo, da, hh, mi, ss⟩, l⟩, hps, h⟩ := h
  split at h
  · exact ctorCheck_valid h
  · cases h

/-- **C1**: for every persisted date cell — malformed strings, the empty
string, truncated fragments, NULL, or a non-string value — `_parse_datetime`
returns a valid timestamp and never raises: a string with a fractional
separator is parsed with the sub-second format, any other non-empty string
with the whole-second format, and on any parse failure (including the falsy
and non-string cases) the current timestamp is substituted, so no date-parsing
exception can propagate out of `list`, `search`, or `get`. -/
theorem parse_datetime_robust (cell : DateCell) (now : DateTime)
    (hnow : now.Valid) :
    (parse_datetime cell now).Valid ∧
    (∀ s, cell = DateCell.str s → s ≠ "" →
      (s.toList.contains '.' = true →
        parse_datetime cell now = (strptimeFrac s).getD now) ∧
      (s.toList.contains '.' = false →
        parse_datetime cell now = (strptimeSec s).getD now) ∧
      (strptimeFrac s = none → strptimeSec s = none →
        parse_datetime cell now = now)) ∧
    ((cell = DateCell.null ∨ cell = DateCell.nonstr ∨ cell = DateCell.str "") →
      parse_datetime cell now = now) := by
  refine ⟨?_, ?_, ?_⟩
  · cases cell with
    | null => exact hnow
    | nonstr => exact hnow
    | str s =>
      simp only [parse_datetime]
      by_cases hs : s = ""
      · rw [if_pos hs]
        exact hnow
      · rw [if_neg hs]
        by_cases hdot : s.toList.contains '.' = true
        · rw [if_pos hdot]
          cases hf : strptimeFrac s with
          | none => simpa using hnow
          | some d => simpa using strptimeFrac_valid hf
        · rw [if_neg hdot]
          cases hf : strptimeSec s with
          | none => simpa using hnow
          | some d => simpa using strptimeSec_valid hf
  · rintro s rfl hs
    refine ⟨?_, ?_, ?_⟩
    · intro hdot
      simp only [parse_datetime]
      rw [if_neg hs, if_pos hdot]
    · intro hdot
      simp only [parse_datetime]
      rw [if_neg hs, if_neg (by simpa using hdot)]
    · intro hf hsec
      simp only [parse_datetime]
      rw [if_neg hs]
      by_cases hdot : s.toList.contains '.' = true
      · rw [if_pos hdot, hf]
        rfl
      · rw [if_neg hdot, hsec]
        rfl
  · rintro (rfl | rfl | rfl) <;> rfl

/-- Witness for C1: a malformed persisted string at a concrete current time. -/
theorem parse_datetime_robust_witness :
    DateTime.Valid ⟨2026, 10, 12, 0, 0, 0, 0⟩ ∧
    (parse_datetime (DateCell.str "not-a-date") ⟨2026, 10, 12, 0, 0, 0, 0⟩).Valid :=
  ⟨by decide,
    (parse_datetime_robust (DateCell.str "not-a-date") ⟨2026, 10, 12, 0, 0, 0, 0⟩
      (by decide)).1⟩

/-!
### C3: serialization round-trip and save/get
-/

theorem isDigit_ofNat {n : Nat} (h : n ≤ 9) : (Char.ofNat (48 + n)).isDigit = true := by
  interval_cases n <;> decide

theorem digVal_ofNat {n : Nat} (h : n ≤ 9) : digVal (Char.ofNat (48 + n)) = n := by
  interval_cases n <;> decide

theorem pyWs_ofNat {n : Nat} (h : n ≤ 9) : pyWs (Char.ofNat (48 + n)) = false := by
  interval_cases n <;> decide

theorem daysInMonth_le_31 (y m : Nat) : daysInMonth y m ≤ 31 := by
  unfold daysInMonth
  split <;> first | omega | (split <;> omega)

theorem one_le_daysInMonth (y m : Nat) (h1 : 1 ≤ m) (h2 : m ≤ 12) :
    1 ≤ daysInMonth y m := by
  interval_cases m <;> dsimp only [daysInMonth] <;>
    first | omega | (split <;> omega)

theorem parse4_fmt4 {n : Nat} (h : n ≤ 9999) (rest : List Char) :
    parse4 (fmt4 n ++ rest) = some (n, rest) := by
  have h1 : n / 1000 ≤ 9 := by omega
  have h2 : n / 100 % 10 ≤ 9 := by omega
  have h3 : n / 10 % 10 ≤ 9 := by omega
  have h4 : n % 10 ≤ 9 := by omega
  simp [fmt4, parse4, isDigit_ofNat h1, isDigit_ofNat h2, isDigit_ofNat h3,
    isDigit_ofNat h4, digVal_ofNat h1, digVal_ofNat h2, digVal_ofNat h3,
    digVal_ofNat h4]
  omega

theorem parse2or1_fmt2 (ok2 ok1 : Nat → Bool) {n : Nat} (h : n ≤ 99)
    (hok : ok2 n = true) (rest : List Char) :
    parse2or1 ok2 ok1 (fmt2 n ++ rest) = some (n, rest) := by
  have h1 : n / 10 ≤ 9 := by omega
  have h2 : n % 10 ≤ 9 := by omega
  have hval : digVal (Char.ofNat (48 + n / 10)) * 10 +
      digVal (Char.ofNat (48 + n % 10)) = n := by
    rw [digVal_ofNat h1, digVal_ofNat h2]
    omega
  simp [fmt2, parse2or1, isDigit_ofNat h1, isDigit_ofNat h2, hval, hok]

theorem parseLit_cons (ch : Char) (rest : List Char) :
    parseLit ch (ch :: rest) = some rest := by
  simp [parseLit]

theorem parseWs_fmt2 {n : Nat} (h : n ≤ 99) (rest : List Char) :
    parseWs (' ' :: (fmt2 n ++ rest)) = some (fmt2 n ++ rest) := by
  have h1 : n / 10 ≤ 9 := by omega
  simp [parseWs, fmt2, List.dropWhile_cons, pyWs_ofNat h1,
    (by decide : pyWs ' ' = true)]

theorem parseMicro_fmt6 {n : Nat} (h : n ≤ 999999) :
    parseMicro (fmt6 n) = some (n, []) := by
  have h1 : n / 100000 ≤ 9 := by omega
  have h2 : n / 10000 % 10 ≤ 9 := by omega
  have h3 : n / 1000 % 10 ≤ 9 := by omega
  have h4 : n / 100 % 10 ≤ 9 := by omega
  have h5 : n / 10 % 10 ≤ 9 := by omega
  have h6 : n % 10 ≤ 9 := by omega
  simp [parseMicro, fmt6, List.takeWhile_cons, natOfDigits,
    isDigit_ofNat h1, isDigit_ofNat h2, isDigit_ofNat h3, isDigit_ofNat h4,
    isDigit_ofNat h5, isDigit_ofNat h6, digVal_ofNat h1, digVal_ofNat h2,
    digVal_ofNat h3, digVal_ofNat h4, digVal_ofNat h5, digVal_ofNat h6]
  omega

theorem parseStamp_fmt (rest : List Char) {y mo da h mi s : Nat}
    (hy : y ≤ 9999) (hmo1 : 1 ≤ mo) (hmo2 : mo ≤ 12) (hda1 : 1 ≤ da)
    (hda2 : da ≤ 31) (hh : h ≤ 23) (hmi : mi ≤ 59) (hs : s ≤ 61) :
    parseStamp (fmt4 y ++ ('-' :: (fmt2 mo ++ ('-' :: (fmt2 da ++ (' ' :: (fmt2 h ++
        (':' :: (fmt2 mi ++ (':' :: (fmt2 s ++ rest)))))))))))
      = some ((y, mo, da, h, mi, s), rest) := by
  unfold parseStamp
  simp only [parse4_fmt4 hy, Option.bind_eq_bind, Option.some_bind, parseLit_cons,
    parse2or1_fmt2 (fun v => decide (1 ≤ v) && decide (v ≤ 12))
      (fun v => decide (1 ≤ v)) (show mo ≤ 99 by omega) (by simp [hmo1, hmo2]),
    parse2or1_fmt2 (fun v => decide (1 ≤ v) && decide (v ≤ 31))
      (fun v => decide (1 ≤ v)) (show da ≤ 99 by omega) (by simp [hda1, hda2]),
    parseWs_fmt2 (show h ≤ 99 by omega),
    parse2or1_fmt2 (fun v => decide (v ≤ 23)) (fun _ => true)
      (show h ≤ 99 by omega) (by simp [hh]),
    parse2or1_fmt2 (fun v => decide (v ≤ 59)) (fun _ => true)
      (show mi ≤ 99 by omega) (by simp [hmi]),
    parse2or1_fmt2 (fun v => decide (v ≤ 61)) (fun _ => true)
      (show s ≤ 99 by omega) (by simp [hs])]
  rfl

theorem strptimeFrac_fmtFull (d : DateTime) (hd : d.Valid) :
    strptimeFrac (fmtFull d) = some d := by
  obtain ⟨hy1, hy2, hmo1, hmo2, hda1, hda2, hh, hmi, hs, hus⟩ := hd
  have hda31 : d.day ≤ 31 := le_trans hda2 (daysInMonth_le_31 _ _)
  unfold strptimeFrac
  have htl : (fmtFull d).toList =
      fmt4 d.year ++ ('-' :: (fmt2 d.month ++ ('-' :: (fmt2 d.day ++ (' ' ::
        (fmt2 d.hour ++ (':' :: (fmt2 d.minute ++ (':' :: (fmt2 d.second ++
          ('.' :: fmt6 d.microsecond))))))))))) := rfl
  rw [htl, parseStamp_fmt _ hy2 hmo1 hmo2 hda1 hda31 hh hmi (by omega)]
  simp only [Option.bind_eq_bind, Option.some_bind, parseLit_cons,
    parseMicro_fmt6 hus, List.isEmpty_nil, if_true]
  unfold ctorCheck
  rw [if_pos ⟨hy1, hy2, hmo1, hmo2, hda1, hda2, hh, hmi, hs, hus⟩]

theorem fmtFull_contains_dot (d : DateTime) :
    (fmtFull d).toList.contains '.' = true := by
  simp [fmtFull, fmt4, fmt2, fmt6]

theorem parse_datetime_fmtFull (d : DateTime) (hd : d.Valid) (now : DateTime) :
    parse_datetime (DateCell.str (fmtFull d)) now = d := by
  have hne : fmtFull d ≠ "" := by
    intro hcontra
    have h2 : (fmtFull d).toList = [] := by rw [hcontra]; rfl
    simp [fmtFull, fmt4] at h2
  simp only [parse_datetime]
  rw [if_neg hne, if_pos (fmtFull_contains_dot d), strptimeFrac_fmtFull d hd]
  rfl

/-- Invariant maintained by the storage engine: the autoincrement counter
strictly dominates every stored row id. -/
def DB.WF (db : DB) : Prop :=
  ∀ row ∈ db.rows, row.id < db.nextId

theorem find?_append_last {l : List Row} {p : Row → Bool}
    (hl : ∀ row ∈ l, p row = false) (a : Row) (ha : p a = true) :
    (l ++ [a]).find? p = some a := by
  induction l with
  | nil => simp [List.find?, ha]
  | cons b l ih =>
    have hb : p b = false := hl b (by simp)
    simp only [List.cons_append, List.find?, hb]
    exact ih fun row hmem => hl row (by simp [hmem])

/-- **C3**: for every valid set of record fields, `save_record` followed by
`get_record` at the returned id yields a record with that id whose category,
description, type and date equal the originals exactly and whose amount is
within the 0.001 tolerance (the storage层 stores the amount unchanged); the
date survives because its canonical serialization parses back to itself. -/
theorem save_get_roundtrip (db : DB) (r : Record) (hwf : DB.WF db)
    (hdate : r.date.Valid) :
    ∃ rec : Record,
      DataStorage.get_record (DataStorage.save_record db r).1
          (DataStorage.save_record db r).2 = some rec ∧
      rec.id = some (DataStorage.save_record db r).2 ∧
      rec.category = r.category ∧
      rec.description = r.description ∧
      rec.type = r.type ∧
      rec.date = r.date ∧
      |rec.amount - r.amount| < 1 / 1000 ∧
      (∀ now, parse_datetime (DateCell.str (fmtFull rec.date)) now = rec.date) := by
  refine ⟨⟨some db.nextId, r.amount, r.category, r.description, r.type, r.date⟩,
    ?_, rfl, rfl, rfl, rfl, rfl, ?_, ?_⟩
  · unfold DataStorage.save_record DataStorage.get_record
    dsimp only
    rw [find?_append_last (fun row hmem => ?_) _ (by simp)]
    · rfl
    · have hlt : row.id < db.nextId := hwf row hmem
      simpa using Nat.ne_of_lt hlt
  · rw [sub_self, abs_zero]
    norm_num
  · intro now
    exact parse_datetime_fmtFull r.date hdate now

/-- Witness for C3 at a concrete record and an empty database. -/
theorem save_get_roundtrip_witness :
    DB.WF ⟨1, []⟩ ∧ DateTime.Valid ⟨2026, 10, 12, 9, 30, 0, 0⟩ ∧
    (∃ rec : Record,
      DataStorage.get_record
          (DataStorage.save_record ⟨1, []⟩
            ⟨none, 5, "salary", "pay", RecordType.income, ⟨2026, 10, 12, 9, 30, 0, 0⟩⟩).1
          (DataStorage.save_record ⟨1, []⟩
            ⟨none, 5, "salary", "pay", RecordType.income, ⟨2026, 10, 12, 9, 30, 0, 0⟩⟩).2
        = some rec ∧
      rec.id = some (DataStorage.save_record ⟨1, []⟩
            ⟨none, 5, "salary", "pay", RecordType.income, ⟨2026, 10, 12, 9, 30, 0, 0⟩⟩).2 ∧
      rec.category = "salary" ∧
      rec.description = "pay" ∧
      rec.type = RecordType.income ∧
      rec.date = ⟨2026, 10, 12, 9, 30, 0, 0⟩ ∧
      |rec.amount - 5| < 1 / 1000 ∧
      (∀ now, parse_datetime (DateCell.str (fmtFull rec.date)) now = rec.date)) :=
  ⟨by intro row hmem; simp at hmem, by decide,
    save_get_roundtrip ⟨1, []⟩
      ⟨none, 5, "salary", "pay", RecordType.income, ⟨2026, 10, 12, 9, 30, 0, 0⟩⟩
      (by intro row hmem; simp at hmem) (by decide)⟩

/-!
### C2: search filter conjunction
-/

theorem kwCond_iff (keyword : Option String) (row : Row) :
    DataStorage.kwCond keyword row = true ↔
      ∀ k, keyword = some k → k ≠ "" →
        (likeMatch (kwPattern k) row.description.toList = true ∨
         likeMatch (kwPattern k) row.category.toList = true) := by
  cases keyword with
  | none => simp [DataStorage.kwCond]
  | some k =>
    by_cases hk : k = "" <;> simp [DataStorage.kwCond, hk]

theorem catCond_iff (category : Option String) (row : Row) :
    DataStorage.catCond category row = true ↔
      ∀ c, category = some c → c ≠ "" → row.category = c := by
  cases category with
  | none => simp [DataStorage.catCond]
  | some c =>
    by_cases hc : c = "" <;> simp [DataStorage.catCond, hc]

theorem minCond_iff (minA : Option ℚ) (row : Row) :
    DataStorage.minCond minA row = true ↔ ∀ q, minA = some q → q ≤ row.amount := by
  cases minA <;> simp [DataStorage.minCond]

theorem maxCond_iff (maxA : Option ℚ) (row : Row) :
    DataStorage.maxCond maxA row = true ↔ ∀ q, maxA = some q → row.amount ≤ q := by
  cases maxA <;> simp [DataStorage.maxCond]

theorem typeCond_iff (rt : Option RecordType) (row : Row) :
    DataStorage.typeCond rt row = true ↔ ∀ t, rt = some t → row.type = t := by
  cases rt <;> simp [DataStorage.typeCond]

/-- **C2** (amended): a record is in the search result exactly when it comes
from a stored row satisfying every supplied filter, where the keyword filter
is SQL `LIKE` matching of `%keyword%` against the description or the category
(ASCII-case-insensitive; `%` and `_` inside the keyword act as wildcards —
for a wildcard-free keyword this is case-insensitive substring containment),
the category filter is exact match, the date and amount bounds are inclusive,
and the type filter is exact match on the enumerant. -/
theorem search_conjunction_like (db : DB) (keyword category : Option String)
    (startD endD : Option DateTime) (minA maxA : Option ℚ) (rt : Option RecordType)
    (r : Record) :
    r ∈ DataStorage.search_records db keyword category startD endD minA maxA rt ↔
      ∃ row ∈ db.rows, r = DataStorage.toRecord row ∧
        (∀ k, keyword = some k → k ≠ "" →
          (likeMatch (kwPattern k) row.description.toList = true ∨
           likeMatch (kwPattern k) row.category.toList = true)) ∧
        (∀ c, category = some c → c ≠ "" → row.category = c) ∧
        (∀ a, startD = some a → DateTime.key a ≤ DateTime.key row.date) ∧
        (∀ b, endD = some b → DateTime.key row.date ≤ DateTime.key b) ∧
        (∀ q, minA = some q → q ≤ row.amount) ∧
        (∀ q, maxA = some q → row.amount ≤ q) ∧
        (∀ t, rt = some t → row.type = t) := by
  rw [mem_search_records]
  constructor
  · rintro ⟨row, hmem, hcond, hr⟩
    unfold DataStorage.searchCond at hcond
    simp only [Bool.and_eq_true] at hcond
    obtain ⟨⟨⟨⟨⟨hkw, hcat⟩, hrange⟩, hmin⟩, hmax⟩, htype⟩ := hcond
    exact ⟨row, hmem, hr, (kwCond_iff _ _).mp hkw, (catCond_iff _ _).mp hcat,
      ((inDateRange_iff _ _ _).mp hrange).1, ((inDateRange_iff _ _ _).mp hrange).2,
      (minCond_iff _ _).mp hmin, (maxCond_iff _ _).mp hmax,
      (typeCond_iff _ _).mp htype⟩
  · rintro ⟨row, hmem, hr, hkw, hcat, hstart, hstop, hmin, hmax, htype⟩
    refine ⟨row, hmem, ?_, hr⟩
    unfold DataStorage.searchCond
    simp only [Bool.and_eq_true]
    exact ⟨⟨⟨⟨⟨(kwCond_iff _ _).mpr hkw, (catCond_iff _ _).mpr hcat⟩,
      (inDateRange_iff _ _ _).mpr ⟨hstart, hstop⟩⟩,
      (minCond_iff _ _).mpr hmin⟩, (maxCond_iff _ _).mpr hmax⟩,
      (typeCond_iff _ _).mpr htype⟩

/-- The claim's phrase "keyword appears as a substring": contiguous substring
containment, written out so the counterexample can state its failure. -/
def isSubstr (needle hay : List Char) : Bool :=
  hay.tails.any fun t => needle.isPrefixOf t

/-- Counterexample to C2 as stated: with keyword `"_"`, the search returns a
record although `"_"` appears as a substring of neither the category `"c"`
nor the description `"x"` — SQL `LIKE` treats `_` as a one-character
wildcard (and `%` similarly, and ASCII letters match case-insensitively). -/
theorem search_keyword_substring_cex :
    DataStorage.search_records
        ⟨2, [⟨1, 5, "c", "x", RecordType.expense, ⟨2026, 1, 1, 0, 0, 0, 0⟩⟩]⟩
        (some "_") none none none none none none
      = [⟨some 1, 5, "c", "x", RecordType.expense, ⟨2026, 1, 1, 0, 0, 0, 0⟩⟩] ∧
    isSubstr "_".toList "x".toList = false ∧
    isSubstr "_".toList "c".toList = false := by
  exact ⟨by decide, by decide, by decide⟩

/-!
### Summary computation
-/

/-- Total of the INCOME-typed amounts of a record list. -/
def incomeTotal (rs : List Record) : ℚ :=
  ((rs.filter fun r => r.type == RecordType.income).map Record.amount).sum

/-- Total of the EXPENSE-typed amounts of a record list. -/
def expenseTotal (rs : List Record) : ℚ :=
  ((rs.filter fun r => r.type == RecordType.expense).map Record.amount).sum

theorem calc_foldl (rs : List Record) (a b : ℚ) :
    rs.foldl
      (fun (acc : ℚ × ℚ) r =>
        if r.type = RecordType.income then (acc.1 + r.amount, acc.2)
        else (acc.1, acc.2 + r.amount))
      (a, b) = (a + incomeTotal rs, b + expenseTotal rs) := by
  induction rs generalizing a b with
  | nil => simp [incomeTotal, expenseTotal]
  | cons r rs ih =>
    simp only [List.foldl_cons]
    cases htype : r.type with
    | income =>
      rw [if_pos rfl, ih]
      have h1 : incomeTotal (r :: rs) = r.amount + incomeTotal rs := by
        simp [incomeTotal, List.filter_cons, htype]
      have h2 : expenseTotal (r :: rs) = expenseTotal rs := by
        simp [expenseTotal, List.filter_cons, htype]
      rw [h1, h2, add_assoc]
    | expense =>
      rw [if_neg (by decide), ih]
      have h1 : incomeTotal (r :: rs) = incomeTotal rs := by
        simp [incomeTotal, List.filter_cons, htype]
      have h2 : expenseTotal (r :: rs) = r.amount + expenseTotal rs := by
        simp [expenseTotal, List.filter_cons, htype]
      rw [h1, h2, add_assoc]

theorem calculate_summary_spec (rs : List Record) :
    StatisticsEngine.calculate_summary rs =
      ⟨incomeTotal rs, expenseTotal rs, incomeTotal rs - expenseTotal rs⟩ := by
  unfold StatisticsEngine.calculate_summary
  rw [calc_foldl]
  simp

/-- Filtered amount sums of a mapped row list are row-level filtered sums. -/
theorem totals_map_toRecord (l : List Row) (t : RecordType) :
    ((((l.map DataStorage.toRecord).filter fun r => r.type == t).map
      Record.amount)).sum =
      ((l.filter fun row => row.type == t).map Row.amount).sum := by
  induction l with
  | nil => simp
  | cons row l ih =>
    by_cases htype : row.type = t
    · simp [List.filter_cons, DataStorage.toRecord, htype, ih]
    · simp [List.filter_cons, DataStorage.toRecord, htype, ih]

theorem incomeTotal_map_toRecord (l : List Row) :
    incomeTotal (l.map DataStorage.toRecord) =
      ((l.filter fun row => row.type == RecordType.income).map Row.amount).sum := by
  simpa [incomeTotal] using totals_map_toRecord l RecordType.income

theorem expenseTotal_map_toRecord (l : List Row) :
    expenseTotal (l.map DataStorage.toRecord) =
      ((l.filter fun row => row.type == RecordType.expense).map Row.amount).sum := by
  simpa [expenseTotal] using totals_map_toRecord l RecordType.expense

theorem row_income_add_expense (l : List Row) :
    ((l.filter fun row => row.type == RecordType.income).map Row.amount).sum +
      ((l.filter fun row => row.type == RecordType.expense).map Row.amount).sum =
      (l.map Row.amount).sum := by
  induction l with
  | nil => simp
  | cons row l ih =>
    cases htype : row.type with
    | income =>
      simp [List.filter_cons, htype]
      linarith [ih]
    | expense =>
      simp [List.filter_cons, htype]
      linarith [ih]

/-- The two totals of a summary computed from `get_all_records` are sums over
exactly the rows whose date lies within the inclusive bounds. -/
theorem summary_get_all (db : DB) (startD endD : Option DateTime) :
    StatisticsEngine.calculate_summary (DataStorage.get_all_records db startD endD) =
      ⟨((db.rows.filter (DataStorage.inDateRange startD endD)).filter
          (fun row => row.type == RecordType.income) |>.map Row.amount).sum,
        ((db.rows.filter (DataStorage.inDateRange startD endD)).filter
          (fun row => row.type == RecordType.expense) |>.map Row.amount).sum,
        ((db.rows.filter (DataStorage.inDateRange startD endD)).filter
          (fun row => row.type == RecordType.income) |>.map Row.amount).sum -
        ((db.rows.filter (DataStorage.inDateRange startD endD)).filter
          (fun row => row.type == RecordType.expense) |>.map Row.amount).sum⟩ := by
  rw [calculate_summary_spec]
  unfold DataStorage.get_all_records
  have hperm : List.Perm
      ((db.rows.filter (DataStorage.inDateRange startD endD)).insertionSort rowGE)
      (db.rows.filter (DataStorage.inDateRange startD endD)) :=
    List.perm_insertionSort rowGE _
  have hinc := incomeTotal_map_toRecord
    ((db.rows.filter (DataStorage.inDateRange startD endD)).insertionSort rowGE)
  have hexp := expenseTotal_map_toRecord
    ((db.rows.filter (DataStorage.inDateRange startD endD)).insertionSort rowGE)
  rw [hinc, hexp, ((hperm.filter _).map Row.amount).sum_eq,
    ((hperm.filter _).map Row.amount).sum_eq]

/-!
### Day bounds: `midnight + 1 day - 1 second`
-/

/-- Validity of a calendar-day triple (the date part of the `datetime`
constructor's constraints, without the upper year bound). -/
def ValidT (t : Nat × Nat × Nat) : Prop :=
  1 ≤ t.1 ∧ 1 ≤ t.2.1 ∧ t.2.1 ≤ 12 ∧ 1 ≤ t.2.2 ∧ t.2.2 ≤ daysInMonth t.1 t.2.1

theorem nextDayT_mid {y m d : Nat} (h : d < daysInMonth y m) :
    nextDayT (y, m, d) = (y, m, d + 1) := by
  unfold nextDayT
  dsimp only
  rw [if_pos h]

theorem nextDayT_month {y m d : Nat} (h1 : ¬d < daysInMonth y m) (h2 : m < 12) :
    nextDayT (y, m, d) = (y, m + 1, 1) := by
  unfold nextDayT
  dsimp only
  rw [if_neg h1, if_pos h2]

theorem nextDayT_year {y m d : Nat} (h1 : ¬d < daysInMonth y m) (h2 : ¬m < 12) :
    nextDayT (y, m, d) = (y + 1, 1, 1) := by
  unfold nextDayT
  dsimp only
  rw [if_neg h1, if_neg h2]

theorem prevDayT_mid {y m d : Nat} (h : 1 < d) :
    prevDayT (y, m, d) = (y, m, d - 1) := by
  unfold prevDayT
  dsimp only
  rw [if_pos h]

theorem prevDayT_month {y m d : Nat} (h1 : ¬1 < d) (h2 : 1 < m) :
    prevDayT (y, m, d) = (y, m - 1, daysInMonth y (m - 1)) := by
  unfold prevDayT
  dsimp only
  rw [if_neg h1, if_pos h2]

theorem prevDayT_year {y m d : Nat} (h1 : ¬1 < d) (h2 : ¬1 < m) :
    prevDayT (y, m, d) = (y - 1, 12, 31) := by
  unfold prevDayT
  dsimp only
  rw [if_neg h1, if_neg h2]

theorem prevDayT_nextDayT {t : Nat × Nat × Nat} (hv : ValidT t) :
    prevDayT (nextDayT t) = t := by
  obtain ⟨y, m, d⟩ := t
  obtain ⟨hy, hm1, hm2, hd1, hd2⟩ := hv
  dsimp only at hy hm1 hm2 hd1 hd2
  by_cases h1 : d < daysInMonth y m
  · rw [nextDayT_mid h1, prevDayT_mid (by omega)]
    simp
  · by_cases h2 : m < 12
    · rw [nextDayT_month h1 h2, prevDayT_month (by omega) (by omega)]
      have hd : d = daysInMonth y m := by omega
      simp [hd]
    · rw [nextDayT_year h1 h2, prevDayT_year (by omega) (by omega)]
      have hm : m = 12 := by omega
      have h31 : daysInMonth y 12 = 31 := rfl
      have hd : d = 31 := by
        rw [hm, h31] at hd2
        rw [hm] at h1
        rw [h31] at h1
        omega
      simp [hm, hd]

theorem minusOneSecond_midnight (t : Nat × Nat × Nat) :
    minusOneSecond (midnightT t) =
      ⟨(prevDayT t).1, (prevDayT t).2.1, (prevDayT t).2.2, 23, 59, 59, 0⟩ := by
  unfold minusOneSecond midnightT
  dsimp only
  rw [if_neg (by omega), if_neg (by omega), if_neg (by omega)]

/-- For a valid day, `midnight + timedelta(days=1) - timedelta(seconds=1)`
is that day's 23:59:59.000000. -/
theorem dayStop_eq {t : Nat × Nat × Nat} (hv : ValidT t) :
    minusOneSecond (midnightT (nextDayT t)) =
      ⟨t.1, t.2.1, t.2.2, 23, 59, 59, 0⟩ := by
  rw [minusOneSecond_midnight, prevDayT_nextDayT hv]

/-- **C4** (amended): for every valid date other than 9999-12-31 (where the
intermediate `midnight + timedelta(days=1)` overflows Python's datetime range
and the call raises `OverflowError`), `get_daily_summary` succeeds and its
totals sum the amounts of exactly the stored rows whose date lies within
`[midnight(d), midnight(d) + 1 day - 1 second]` — income summing the
INCOME-typed ones, expense the EXPENSE-typed ones — and the balance is
income minus expense. -/
theorem daily_summary_additive (d : DateTime) (db : DB) (hd : d.Valid)
    (hlast : (d.year, d.month, d.day) ≠ (9999, 12, 31)) :
    ∃ s, StatisticsEngine.get_daily_summary d db = some s ∧
      s.total_income + s.total_expense =
        ((db.rows.filter (DataStorage.inDateRange
            (some ⟨d.year, d.month, d.day, 0, 0, 0, 0⟩)
            (some ⟨d.year, d.month, d.day, 23, 59, 59, 0⟩))).map Row.amount).sum ∧
      s.total_income =
        (((db.rows.filter (DataStorage.inDateRange
            (some ⟨d.year, d.month, d.day, 0, 0, 0, 0⟩)
            (some ⟨d.year, d.month, d.day, 23, 59, 59, 0⟩))).filter
          (fun row => row.type == RecordType.income)).map Row.amount).sum ∧
      s.total_expense =
        (((db.rows.filter (DataStorage.inDateRange
            (some ⟨d.year, d.month, d.day, 0, 0, 0, 0⟩)
            (some ⟨d.year, d.month, d.day, 23, 59, 59, 0⟩))).filter
          (fun row => row.type == RecordType.expense)).map Row.amount).sum ∧
      s.balance = s.total_income - s.total_expense := by
  obtain ⟨hy1, hy2, hmo1, hmo2, hda1, hda2, hh, hmi, hs, hus⟩ := hd
  have hvt : ValidT d.ymd := ⟨hy1, hmo1, hmo2, hda1, hda2⟩
  unfold StatisticsEngine.get_daily_summary
  rw [if_neg hlast]
  dsimp only
  have hstart : midnightT d.ymd = ⟨d.year, d.month, d.day, 0, 0, 0, 0⟩ := rfl
  have hstop : minusOneSecond (midnightT (nextDayT d.ymd)) =
      ⟨d.year, d.month, d.day, 23, 59, 59, 0⟩ := dayStop_eq hvt
  rw [hstart, hstop, summary_get_all]
  refine ⟨_, rfl, ?_, rfl, rfl, rfl⟩
  exact row_income_add_expense _

/-- Witness for the amended C4 at a concrete date and an empty store. -/
theorem daily_summary_additive_witness :
    DateTime.Valid ⟨2026, 10, 12, 9, 30, 0, 0⟩ ∧
    ((2026, 10, 12) : Nat × Nat × Nat) ≠ (9999, 12, 31) ∧
    (∃ s, StatisticsEngine.get_daily_summary ⟨2026, 10, 12, 9, 30, 0, 0⟩ ⟨1, []⟩
        = some s ∧
      s.total_income + s.total_expense =
        ((([] : List Row).filter (DataStorage.inDateRange
            (some ⟨2026, 10, 12, 0, 0, 0, 0⟩)
            (some ⟨2026, 10, 12, 23, 59, 59, 0⟩))).map Row.amount).sum ∧
      s.total_income =
        (((([] : List Row).filter (DataStorage.inDateRange
            (some ⟨2026, 10, 12, 0, 0, 0, 0⟩)
            (some ⟨2026, 10, 12, 23, 59, 59, 0⟩))).filter
          (fun row => row.type == RecordType.income)).map Row.amount).sum ∧
      s.total_expense =
        (((([] : List Row).filter (DataStorage.inDateRange
            (some ⟨2026, 10, 12, 0, 0, 0, 0⟩)
            (some ⟨2026, 10, 12, 23, 59, 59, 0⟩))).filter
          (fun row => row.type == RecordType.expense)).map Row.amount).sum ∧
      s.balance = s.total_income - s.total_expense) :=
  ⟨by decide, by decide,
    daily_summary_additive ⟨2026, 10, 12, 9, 30, 0, 0⟩ ⟨1, []⟩ (by decide) (by decide)⟩

/-- Counterexample to C4 as universally stated: 9999-12-31 is a valid date,
but `get_daily_summary` raises there (`midnight + timedelta(days=1)` exceeds
`datetime.max`), modelled as `none` — no summary is produced at all. -/
theorem daily_summary_last_day_cex :
    DateTime.Valid ⟨9999, 12, 31, 0, 0, 0, 0⟩ ∧
    StatisticsEngine.get_daily_summary ⟨9999, 12, 31, 0, 0, 0, 0⟩ ⟨1, []⟩ = none :=
  ⟨by decide, by decide⟩

/-!
### C6: month arithmetic across year boundaries
-/

theorem monthLoopAux_spec (fuel : Nat) (y m : Int) (hm : m ≤ 12)
    (hfuel : 1 ≤ m + 12 * fuel) :
    1 ≤ (StatisticsEngine.monthLoopAux fuel y m).2 ∧
    (StatisticsEngine.monthLoopAux fuel y m).2 ≤ 12 ∧
    (StatisticsEngine.monthLoopAux fuel y m).1 * 12 +
      (StatisticsEngine.monthLoopAux fuel y m).2 = y * 12 + m := by
  induction fuel generalizing y m with
  | zero =>
    unfold StatisticsEngine.monthLoopAux
    refine ⟨by omega, hm, by ring⟩
  | succ fuel ih =>
    unfold StatisticsEngine.monthLoopAux
    by_cases h : m ≤ 0
    · rw [if_pos h]
      obtain ⟨ih1, ih2, ih3⟩ := ih (y - 1) (m + 12) (by omega) (by omega)
      exact ⟨ih1, ih2, by omega⟩
    · rw [if_neg h]
      exact ⟨by omega, hm, by ring⟩

/-- The `while month <= 0` loop of `get_trend_data` always lands on a month
in 1..12 and decrements the year accordingly (the total month index
`year * 12 + month` is preserved). -/
theorem monthLoop_spec (y m : Int) (hm : m ≤ 12) :
    1 ≤ (StatisticsEngine.monthLoop y m).2 ∧
    (StatisticsEngine.monthLoop y m).2 ≤ 12 ∧
    (StatisticsEngine.monthLoop y m).1 * 12 +
      (StatisticsEngine.monthLoop y m).2 = y * 12 + m := by
  unfold StatisticsEngine.monthLoop
  exact monthLoopAux_spec _ y m hm (by omega)

/-- **C6**: month arithmetic rolls over year boundaries correctly in both
directions: `get_monthly_summary(year, 12)` uses the bounds December 1st
00:00:00 through December 31st 23:59:59 — the latter computed as the first
instant of January of `year + 1` minus one second — and the trend month
subtraction normalises any backward step to a month in 1..12 with the
correspondingly decremented year. -/
theorem month_rollover (year : Int) (db : DB) (h1 : 1 ≤ year)
    (h2 : year + 1 ≤ 9999) :
    StatisticsEngine.get_monthly_summary year 12 db =
      some (StatisticsEngine.calculate_summary (DataStorage.get_all_records db
        (some ⟨year.toNat, 12, 1, 0, 0, 0, 0⟩)
        (some ⟨year.toNat, 12, 31, 23, 59, 59, 0⟩))) ∧
    minusOneSecond (midnightT (year.toNat + 1, 1, 1)) =
      ⟨year.toNat, 12, 31, 23, 59, 59, 0⟩ ∧
    (∀ (y m : Int) (i : Nat), m ≤ 12 →
      1 ≤ (StatisticsEngine.monthLoop y (m - i)).2 ∧
      (StatisticsEngine.monthLoop y (m - i)).2 ≤ 12 ∧
      (StatisticsEngine.monthLoop y (m - i)).1 * 12 +
        (StatisticsEngine.monthLoop y (m - i)).2 = y * 12 + (m - i)) := by
  have hstop : minusOneSecond (midnightT (year.toNat + 1, 1, 1)) =
      ⟨year.toNat, 12, 31, 23, 59, 59, 0⟩ := by
    rw [minusOneSecond_midnight, prevDayT_year (by omega) (by omega)]
    simp
  refine ⟨?_, hstop, ?_⟩
  · unfold StatisticsEngine.get_monthly_summary
    rw [if_pos ⟨h1, by omega, by norm_num, by norm_num⟩, if_pos rfl, if_pos h2]
    rw [hstop]
    rfl
  · intro y m i hm
    exact monthLoop_spec y (m - i) (by omega)

/-- Witness for C6 at year 2024. -/
theorem month_rollover_witness :
    (1 : Int) ≤ 2024 ∧ (2024 : Int) + 1 ≤ 9999 ∧
    (StatisticsEngine.get_monthly_summary 2024 12 ⟨1, []⟩ =
      some (StatisticsEngine.calculate_summary (DataStorage.get_all_records ⟨1, []⟩
        (some ⟨(2024 : Int).toNat, 12, 1, 0, 0, 0, 0⟩)
        (some ⟨(2024 : Int).toNat, 12, 31, 23, 59, 59, 0⟩))) ∧
    minusOneSecond (midnightT ((2024 : Int).toNat + 1, 1, 1)) =
      ⟨(2024 : Int).toNat, 12, 31, 23, 59, 59, 0⟩ ∧
    (∀ (y m : Int) (i : Nat), m ≤ 12 →
      1 ≤ (StatisticsEngine.monthLoop y (m - i)).2 ∧
      (StatisticsEngine.monthLoop y (m - i)).2 ≤ 12 ∧
      (StatisticsEngine.monthLoop y (m - i)).1 * 12 +
        (StatisticsEngine.monthLoop y (m - i)).2 = y * 12 + (m - i))) :=
  ⟨by decide, by decide, month_rollover 2024 ⟨1, []⟩ (by decide) (by decide)⟩

/-!
### Rata-die arithmetic for the trend series
-/

theorem dBM_succ (y : Nat) {m : Nat} (hm : 1 ≤ m) :
    daysBeforeMonth y (m + 1) = daysBeforeMonth y m + daysInMonth y m := by
  unfold daysBeforeMonth
  have h1 : m + 1 - 1 = (m - 1) + 1 := by omega
  rw [h1, List.range_succ]
  have h2 : m - 1 + 1 = m := by omega
  simp [h2]

theorem dBM_one (y : Nat) : daysBeforeMonth y 1 = 0 := rfl

theorem dBM13 (y : Nat) :
    daysBeforeMonth y 13 = 365 + (if isLeap y then 1 else 0) := by
  show ((List.range 12).map (fun k => daysInMonth y (k + 1))).sum = _
  simp [List.range_succ, daysInMonth]
  by_cases hL : isLeap y = true <;> simp [hL]

theorem dBM_mono (y : Nat) {a b : Nat} (h : a ≤ b) :
    daysBeforeMonth y a ≤ daysBeforeMonth y b := by
  induction b, h using Nat.le_induction with
  | base => exact le_refl _
  | succ b hab ih =>
    by_cases hb : 1 ≤ b
    · rw [dBM_succ y hb]
      omega
    · have hb0 : b = 0 := by omega
      have ha0 : a = 0 := by omega
      subst hb0
      subst ha0
      exact le_refl _

set_option maxHeartbeats 1000000 in
theorem dBY_succ (y : Nat) (hy : 1 ≤ y) :
    daysBeforeYear (y + 1) =
      daysBeforeYear y + 365 + (if isLeap y then 1 else 0) := by
  obtain ⟨k, rfl⟩ : ∃ k, y = k + 1 := ⟨y - 1, by omega⟩
  unfold daysBeforeYear
  simp only [Nat.add_sub_cancel]
  by_cases hL : isLeap (k + 1) = true
  · rw [if_pos hL]
    simp only [isLeap, Bool.and_eq_true, beq_iff_eq, Bool.or_eq_true, bne_iff_ne,
      Ne] at hL
    obtain ⟨h4, h100⟩ := hL
    rcases h100 with h100 | h400
    · omega
    · omega
  · rw [if_neg hL]
    simp only [isLeap, Bool.and_eq_true, beq_iff_eq, Bool.or_eq_true, bne_iff_ne,
      Ne, not_and, not_or, not_not] at hL
    have hi1 : (k + 1) % 100 = 0 → (k + 1) % 4 = 0 := by omega
    have hi2 : (k + 1) % 400 = 0 → (k + 1) % 100 = 0 := by omega
    by_cases h4 : (k + 1) % 4 = 0
    · obtain ⟨h100, h400⟩ := hL h4
      omega
    · omega

theorem dBY_mono {a b : Nat} (h : a ≤ b) :
    daysBeforeYear a ≤ daysBeforeYear b := by
  induction b, h using Nat.le_induction with
  | base => exact le_refl _
  | succ b hab ih =>
    by_cases hb : 1 ≤ b
    · have hs := dBY_succ b hb
      by_cases hL : isLeap b = true <;> simp [hL] at hs <;> omega
    · have hb0 : b = 0 := by omega
      have ha0 : a = 0 := by omega
      subst hb0
      subst ha0
      exact le_refl _

theorem toRD_lt_dBY_succ {t : Nat × Nat × Nat} (hv : ValidT t) :
    toRD t < daysBeforeYear (t.1 + 1) := by
  obtain ⟨y, m, d⟩ := t
  obtain ⟨hy, hm1, hm2, hd1, hd2⟩ := hv
  dsimp only at hy hm1 hm2 hd1 hd2 ⊢
  have h1 : daysBeforeMonth y m + daysInMonth y m = daysBeforeMonth y (m + 1) :=
    (dBM_succ y hm1).symm
  have h2 : daysBeforeMonth y (m + 1) ≤ daysBeforeMonth y 13 :=
    dBM_mono y (by omega)
  have h3 := dBM13 y
  have h4 := dBY_succ y hy
  unfold toRD
  dsimp only
  by_cases hL : isLeap y = true <;> simp [hL] at h3 h4 <;> omega

theorem toRD_prevDayT {t : Nat × Nat × Nat} (hv : ValidT t) (h1 : 1 ≤ toRD t) :
    toRD (prevDayT t) = toRD t - 1 ∧ ValidT (prevDayT t) := by
  obtain ⟨y, m, d⟩ := t
  obtain ⟨hy, hm1, hm2, hd1, hd2⟩ := hv
  dsimp only at hy hm1 hm2 hd1 hd2
  by_cases hd : 1 < d
  · rw [prevDayT_mid hd]
    refine ⟨?_, hy, hm1, hm2, by show 1 ≤ d - 1; omega,
      by show d - 1 ≤ daysInMonth y m; omega⟩
    unfold toRD
    dsimp only
    omega
  · by_cases hm : 1 < m
    · rw [prevDayT_month hd hm]
      have hdim1 : 1 ≤ daysInMonth y (m - 1) :=
        one_le_daysInMonth y (m - 1) (by omega) (by omega)
      have hsucc : daysBeforeMonth y (m - 1 + 1) =
          daysBeforeMonth y (m - 1) + daysInMonth y (m - 1) :=
        dBM_succ y (by omega)
      have hmm : m - 1 + 1 = m := by omega
      rw [hmm] at hsucc
      refine ⟨?_, hy, by show 1 ≤ m - 1; omega, by show m - 1 ≤ 12; omega,
        by show 1 ≤ daysInMonth y (m - 1); omega,
        by show daysInMonth y (m - 1) ≤ daysInMonth y (m - 1); exact le_refl _⟩
      unfold toRD
      dsimp only
      omega
    · have hd1' : d = 1 := by omega
      have hm1' : m = 1 := by omega
      subst hd1'
      subst hm1'
      rw [prevDayT_year hd hm]
      have htrd : toRD (y, 1, 1) = daysBeforeYear y := by
        unfold toRD
        dsimp only
        rw [dBM_one]
        omega
      have hy2 : 2 ≤ y := by
        by_contra hc
        have hy1 : y = 1 := by omega
        subst hy1
        rw [htrd] at h1
        have : daysBeforeYear 1 = 0 := rfl
        omega
      have e1 : daysBeforeYear (y - 1 + 1) =
          daysBeforeYear (y - 1) + 365 + (if isLeap (y - 1) then 1 else 0) :=
        dBY_succ (y - 1) (by omega)
      have e5 : y - 1 + 1 = y := by omega
      rw [e5] at e1
      have e2 : daysBeforeMonth (y - 1) 13 =
          daysBeforeMonth (y - 1) 12 + daysInMonth (y - 1) 12 :=
        dBM_succ (y - 1) (by omega)
      have e3 : daysInMonth (y - 1) 12 = 31 := rfl
      have e4 := dBM13 (y - 1)
      refine ⟨?_, ?_⟩
      · rw [htrd]
        unfold toRD
        dsimp only
        by_cases hL : isLeap (y - 1) = true <;> simp [hL] at e1 e4 <;> omega
      · exact ⟨by dsimp only; omega, by norm_num, by norm_num, by norm_num,
          by dsimp only; rw [e3]⟩

theorem subDaysT_spec {t : Nat × Nat × Nat} (hv : ValidT t) :
    ∀ i, i ≤ toRD t → toRD (subDaysT t i) = toRD t - i ∧ ValidT (subDaysT t i) := by
  intro i
  induction i with
  | zero =>
    intro _
    exact ⟨by simp [subDaysT], by simpa [subDaysT] using hv⟩
  | succ i ih =>
    intro hi
    obtain ⟨ih1, ih2⟩ := ih (by omega)
    have h1 : 1 ≤ toRD (subDaysT t i) := by omega
    obtain ⟨p1, p2⟩ := toRD_prevDayT ih2 h1
    refine ⟨?_, ?_⟩
    · show toRD (prevDayT (subDaysT t i)) = toRD t - (i + 1)
      omega
    · exact p2

theorem nextDayT_valid {t : Nat × Nat × Nat} (hv : ValidT t) :
    ValidT (nextDayT t) := by
  obtain ⟨y, m, d⟩ := t
  obtain ⟨hy, hm1, hm2, hd1, hd2⟩ := hv
  dsimp only at hy hm1 hm2 hd1 hd2
  by_cases h1 : d < daysInMonth y m
  · rw [nextDayT_mid h1]
    exact ⟨hy, hm1, hm2, by dsimp only; omega, by dsimp only; omega⟩
  · by_cases h2 : m < 12
    · rw [nextDayT_month h1 h2]
      have := one_le_daysInMonth y (m + 1) (by omega) (by omega)
      exact ⟨hy, by dsimp only; omega, by dsimp only; omega, by norm_num,
        by dsimp only; omega⟩
    · rw [nextDayT_year h1 h2]
      have h31 : daysInMonth (y + 1) 1 = 31 := rfl
      exact ⟨by dsimp only; omega, by norm_num, by norm_num, by norm_num,
        by dsimp only; rw [h31]; omega⟩

theorem addDaysT_valid {t : Nat × Nat × Nat} (hv : ValidT t) (n : Nat) :
    ValidT (addDaysT t n) := by
  induction n with
  | zero => simpa [addDaysT] using hv
  | succ n ih => exact nextDayT_valid ih

/-- Chronological keys of midnights order like rata-die day indices. -/
theorem key_midnight_lt {t u : Nat × Nat × Nat} (hvt : ValidT t) (hvu : ValidT u)
    (h : toRD t < toRD u) :
    DateTime.key (midnightT t) < DateTime.key (midnightT u) := by
  obtain ⟨y1, m1, d1⟩ := t
  obtain ⟨y2, m2, d2⟩ := u
  obtain ⟨ht1, ht2, ht3, ht4, ht5⟩ := hvt
  obtain ⟨hu1, hu2, hu3, hu4, hu5⟩ := hvu
  dsimp only at ht1 ht2 ht3 ht4 ht5 hu1 hu2 hu3 hu4 hu5
  have htd : d1 ≤ 31 := le_trans ht5 (daysInMonth_le_31 _ _)
  have hud : d2 ≤ 31 := le_trans hu5 (daysInMonth_le_31 _ _)
  unfold DateTime.key midnightT
  dsimp only
  rcases Nat.lt_trichotomy y1 y2 with hy | hy | hy
  · omega
  · subst hy
    rcases Nat.lt_trichotomy m1 m2 with hm | hm | hm
    · omega
    · subst hm
      rcases Nat.lt_trichotomy d1 d2 with hdd | hdd | hdd
      · omega
      · subst hdd
        exact absurd h (lt_irrefl _)
      · unfold toRD at h
        dsimp only at h
        omega
    · exfalso
      unfold toRD at h
      dsimp only at h
      have e1 : daysBeforeMonth y1 m2 + daysInMonth y1 m2 =
          daysBeforeMonth y1 (m2 + 1) := (dBM_succ y1 hu2).symm
      have e2 : daysBeforeMonth y1 (m2 + 1) ≤ daysBeforeMonth y1 m1 :=
        dBM_mono y1 (by omega)
      omega
  · exfalso
    have h1 := toRD_lt_dBY_succ (⟨hu1, hu2, hu3, hu4, hu5⟩ : ValidT (y2, m2, d2))
    have h2 : daysBeforeYear (y2 + 1) ≤ daysBeforeYear y1 := dBY_mono (by omega)
    unfold toRD at h h1
    dsimp only at h h1
    omega

/-!
### C5: the trend series
-/

namespace StatisticsEngine

/-- Start-of-period calendar day of the trend entry at back-offset `i`. -/
def periodDay (today : DateTime) (period : String) (i : Nat) : Nat × Nat × Nat :=
  if period = "day" then subDaysT today.ymd i
  else if period = "week" then subDaysT today.ymd (weekdayT today.ymd + 7 * i)
  else
    ((monthLoop today.year ((today.month : Int) - i)).1.toNat,
     (monthLoop today.year ((today.month : Int) - i)).2.toNat, 1)

/-- First instant of the period at back-offset `i`. -/
def periodStart (today : DateTime) (period : String) (i : Nat) : DateTime :=
  midnightT (periodDay today period i)

/-- Last instant (at second precision) of the period at back-offset `i`. -/
def periodEnd (today : DateTime) (period : String) (i : Nat) : DateTime :=
  if period = "day" then
    let t := subDaysT today.ymd i
    ⟨t.1, t.2.1, t.2.2, 23, 59, 59, 0⟩
  else if period = "week" then
    let t := addDaysT (subDaysT today.ymd (weekdayT today.ymd + 7 * i)) 6
    ⟨t.1, t.2.1, t.2.2, 23, 59, 59, 0⟩
  else
    let p := monthLoop today.year ((today.month : Int) - i)
    ⟨p.1.toNat, p.2.toNat, daysInMonth p.1.toNat p.2.toNat, 23, 59, 59, 0⟩

/-- Representability of the period at back-offset `i`: the condition under
which the corresponding Python loop iteration does not raise. -/
def trendOK (today : DateTime) (period : String) (i : Nat) : Bool :=
  if period = "day" then
    decide (i ≤ toRD today.ymd) && decide (subDaysT today.ymd i ≠ (9999, 12, 31))
  else if period = "week" then
    decide (weekdayT today.ymd + 7 * i ≤ toRD today.ymd) &&
      decide (toRD today.ymd - (weekdayT today.ymd + 7 * i) + 7 ≤ maxRD)
  else
    decide (1 ≤ (monthLoop today.year ((today.month : Int) - i)).1) &&
      decide ((monthLoop today.year ((today.month : Int) - i)).1 ≤ 9999) &&
      (decide ((monthLoop today.year ((today.month : Int) - i)).2 ≠ 12) ||
        decide ((monthLoop today.year ((today.month : Int) - i)).1 + 1 ≤ 9999))

/-- The trend entry at back-offset `i` as a value (defined when the entry is
representable). -/
def trendEntryVal (today : DateTime) (db : DB) (period : String) (i : Nat) :
    TrendPoint :=
  (trendEntry today db period i).getD ⟨"", 0, 0⟩

end StatisticsEngine

/-- Income and expense of the rows within a window. -/
def windowIncome (db : DB) (a b : DateTime) : ℚ :=
  (((db.rows.filter (DataStorage.inDateRange (some a) (some b))).filter
    (fun row => row.type == RecordType.income)).map Row.amount).sum

/-- Expense counterpart of `windowIncome`. -/
def windowExpense (db : DB) (a b : DateTime) : ℚ :=
  (((db.rows.filter (DataStorage.inDateRange (some a) (some b))).filter
    (fun row => row.type == RecordType.expense)).map Row.amount).sum

theorem periodDay_day (today : DateTime) (i : Nat) :
    StatisticsEngine.periodDay today "day" i =
      subDaysT (today.year, today.month, today.day) i := by
  unfold StatisticsEngine.periodDay
  rw [if_pos rfl]
  rfl

theorem periodDay_week (today : DateTime) (i : Nat) :
    StatisticsEngine.periodDay today "week" i =
      subDaysT (today.year, today.month, today.day)
        (weekdayT (today.year, today.month, today.day) + 7 * i) := by
  unfold StatisticsEngine.periodDay
  rw [if_neg (by decide), if_pos rfl]
  rfl

theorem periodDay_month (today : DateTime) (i : Nat) :
    StatisticsEngine.periodDay today "month" i =
      ((StatisticsEngine.monthLoop (today.year : Int)
          ((today.month : Int) - (i : Int))).1.toNat,
       (StatisticsEngine.monthLoop (today.year : Int)
          ((today.month : Int) - (i : Int))).2.toNat, 1) := by
  unfold StatisticsEngine.periodDay
  rw [if_neg (by decide), if_neg (by decide)]

theorem periodStart_day (today : DateTime) (i : Nat) :
    StatisticsEngine.periodStart today "day" i =
      midnightT (subDaysT (today.year, today.month, today.day) i) := by
  unfold StatisticsEngine.periodStart
  rw [periodDay_day]

theorem periodStart_week (today : DateTime) (i : Nat) :
    StatisticsEngine.periodStart today "week" i =
      midnightT (subDaysT (today.year, today.month, today.day)
        (weekdayT (today.year, today.month, today.day) + 7 * i)) := by
  unfold StatisticsEngine.periodStart
  rw [periodDay_week]

theorem periodStart_month (today : DateTime) (i : Nat) :
    StatisticsEngine.periodStart today "month" i =
      midnightT ((StatisticsEngine.monthLoop (today.year : Int)
          ((today.month : Int) - (i : Int))).1.toNat,
        (StatisticsEngine.monthLoop (today.year : Int)
          ((today.month : Int) - (i : Int))).2.toNat, 1) := by
  unfold StatisticsEngine.periodStart
  rw [periodDay_month]

theorem periodEnd_day (today : DateTime) (i : Nat) :
    StatisticsEngine.periodEnd today "day" i =
      ⟨(subDaysT (today.year, today.month, today.day) i).1,
       (subDaysT (today.year, today.month, today.day) i).2.1,
       (subDaysT (today.year, today.month, today.day) i).2.2, 23, 59, 59, 0⟩ := by
  unfold StatisticsEngine.periodEnd
  rw [if_pos rfl]
  rfl

theorem periodEnd_week (today : DateTime) (i : Nat) :
    StatisticsEngine.periodEnd today "week" i =
      ⟨(addDaysT (subDaysT (today.year, today.month, today.day)
          (weekdayT (today.year, today.month, today.day) + 7 * i)) 6).1,
       (addDaysT (subDaysT (today.year, today.month, today.day)
          (weekdayT (today.year, today.month, today.day) + 7 * i)) 6).2.1,
       (addDaysT (subDaysT (today.year, today.month, today.day)
          (weekdayT (today.year, today.month, today.day) + 7 * i)) 6).2.2,
       23, 59, 59, 0⟩ := by
  unfold StatisticsEngine.periodEnd
  rw [if_neg (by decide), if_pos rfl]
  dsimp only [DateTime.ymd]

theorem periodEnd_month (today : DateTime) (i : Nat) :
    StatisticsEngine.periodEnd today "month" i =
      ⟨(StatisticsEngine.monthLoop (today.year : Int)
          ((today.month : Int) - (i : Int))).1.toNat,
       (StatisticsEngine.monthLoop (today.year : Int)
          ((today.month : Int) - (i : Int))).2.toNat,
       daysInMonth ((StatisticsEngine.monthLoop (today.year : Int)
          ((today.month : Int) - (i : Int))).1.toNat)
         ((StatisticsEngine.monthLoop (today.year : Int)
          ((today.month : Int) - (i : Int))).2.toNat),
       23, 59, 59, 0⟩ := by
  unfold StatisticsEngine.periodEnd
  rw [if_neg (by decide), if_neg (by decide)]

theorem trendEntry_day (today : DateTime) (db : DB) (i : Nat) (hv : today.Valid)
    (hOK : StatisticsEngine.trendOK today "day" i = true) :
    ∃ e, StatisticsEngine.trendEntry today db "day" i = some e ∧
      e.income = windowIncome db (StatisticsEngine.periodStart today "day" i)
        (StatisticsEngine.periodEnd today "day" i) ∧
      e.expense = windowExpense db (StatisticsEngine.periodStart today "day" i)
        (StatisticsEngine.periodEnd today "day" i) := by
  obtain ⟨hy1, hy2, hmo1, hmo2, hda1, hda2, hh, hmi, hs, hus⟩ := hv
  have hvt : ValidT today.ymd := ⟨hy1, hmo1, hmo2, hda1, hda2⟩
  unfold StatisticsEngine.trendOK at hOK
  rw [if_pos rfl] at hOK
  simp only [Bool.and_eq_true, decide_eq_true_eq] at hOK
  obtain ⟨hle, hne⟩ := hOK
  obtain ⟨hrd, hvsub⟩ := subDaysT_spec hvt i hle
  unfold StatisticsEngine.trendEntry
  rw [if_pos rfl, if_neg (by omega)]
  unfold StatisticsEngine.get_daily_summary
  dsimp only [DateTime.ymd]
  rw [if_neg (by exact hne)]
  simp only [Prod.mk.eta]
  have hstop := dayStop_eq hvsub
  dsimp only [DateTime.ymd] at hstop
  rw [hstop, summary_get_all]
  refine ⟨_, rfl, ?_, ?_⟩
  · rfl
  · rfl

theorem trendEntry_week (today : DateTime) (db : DB) (i : Nat) (hv : today.Valid)
    (hOK : StatisticsEngine.trendOK today "week" i = true) :
    ∃ e, StatisticsEngine.trendEntry today db "week" i = some e ∧
      e.income = windowIncome db (StatisticsEngine.periodStart today "week" i)
        (StatisticsEngine.periodEnd today "week" i) ∧
      e.expense = windowExpense db (StatisticsEngine.periodStart today "week" i)
        (StatisticsEngine.periodEnd today "week" i) := by
  obtain ⟨hy1, hy2, hmo1, hmo2, hda1, hda2, hh, hmi, hs, hus⟩ := hv
  have hvt : ValidT today.ymd := ⟨hy1, hmo1, hmo2, hda1, hda2⟩
  unfold StatisticsEngine.trendOK at hOK
  rw [if_neg (by decide), if_pos rfl] at hOK
  simp only [Bool.and_eq_true, decide_eq_true_eq] at hOK
  obtain ⟨hle, hmax⟩ := hOK
  obtain ⟨hrd, hvws⟩ := subDaysT_spec hvt (weekdayT today.ymd + 7 * i) hle
  have hwd0 : weekdayT (subDaysT today.ymd (weekdayT today.ymd + 7 * i)) = 0 := by
    unfold weekdayT at hrd ⊢
    unfold weekdayT at hle
    rw [hrd]
    omega
  unfold StatisticsEngine.trendEntry
  rw [if_neg (by decide), if_pos rfl, if_neg (by omega)]
  unfold StatisticsEngine.get_weekly_summary
  dsimp only [DateTime.ymd]
  simp only [Prod.mk.eta]
  dsimp only [DateTime.ymd] at hwd0 hrd hvws hle hmax
  rw [hwd0]
  have hsub0 : subDaysT (subDaysT (today.year, today.month, today.day)
      (weekdayT (today.year, today.month, today.day) + 7 * i)) 0 =
      subDaysT (today.year, today.month, today.day)
        (weekdayT (today.year, today.month, today.day) + 7 * i) := rfl
  rw [hsub0]
  rw [if_neg (by omega)]
  have h7 : addDaysT (subDaysT (today.year, today.month, today.day)
      (weekdayT (today.year, today.month, today.day) + 7 * i)) 7 =
      nextDayT (addDaysT (subDaysT (today.year, today.month, today.day)
        (weekdayT (today.year, today.month, today.day) + 7 * i)) 6) := rfl
  rw [h7]
  have hstop := dayStop_eq (addDaysT_valid hvws 6)
  rw [hstop, summary_get_all]
  refine ⟨_, rfl, ?_, ?_⟩
  · unfold windowIncome
    rw [periodStart_week, periodEnd_week]
  · unfold windowExpense
    rw [periodStart_week, periodEnd_week]

theorem trendEntry_month (today : DateTime) (db : DB) (i : Nat) (hv : today.Valid)
    (hOK : StatisticsEngine.trendOK today "month" i = true) :
    ∃ e, StatisticsEngine.trendEntry today db "month" i = some e ∧
      e.income = windowIncome db (StatisticsEngine.periodStart today "month" i)
        (StatisticsEngine.periodEnd today "month" i) ∧
      e.expense = windowExpense db (StatisticsEngine.periodStart today "month" i)
        (StatisticsEngine.periodEnd today "month" i) := by
  obtain ⟨hy1, hy2, hmo1, hmo2, hda1, hda2, hh, hmi, hs, hus⟩ := hv
  obtain ⟨hp1, hp2, hp3⟩ := monthLoop_spec (today.year : Int)
    ((today.month : Int) - (i : Int)) (by omega)
  unfold StatisticsEngine.trendOK at hOK
  rw [if_neg (by decide), if_neg (by decide)] at hOK
  simp only [Bool.and_eq_true, Bool.or_eq_true, decide_eq_true_eq] at hOK
  obtain ⟨⟨hq1, hq2⟩, hq3⟩ := hOK
  unfold StatisticsEngine.trendEntry
  rw [if_neg (by decide), if_neg (by decide)]
  dsimp only
  unfold StatisticsEngine.get_monthly_summary
  rw [if_pos ⟨hq1, hq2, by omega, by omega⟩]
  by_cases h12 : (StatisticsEngine.monthLoop (today.year : Int)
      ((today.month : Int) - (i : Int))).2 = 12
  · rw [if_pos h12]
    have hq4 : (StatisticsEngine.monthLoop (today.year : Int)
        ((today.month : Int) - (i : Int))).1 + 1 ≤ 9999 := by
      rcases hq3 with hq3 | hq3
      · exact absurd h12 hq3
      · exact hq3
    rw [if_pos hq4]
    have hstop : minusOneSecond (midnightT ((StatisticsEngine.monthLoop
        (today.year : Int) ((today.month : Int) - (i : Int))).1.toNat + 1, 1, 1)) =
        ⟨(StatisticsEngine.monthLoop (today.year : Int)
            ((today.month : Int) - (i : Int))).1.toNat,
          12, 31, 23, 59, 59, 0⟩ := by
      rw [minusOneSecond_midnight, prevDayT_year (by omega) (by omega)]
      simp
    rw [hstop, summary_get_all]
    refine ⟨_, rfl, ?_, ?_⟩
    · unfold windowIncome
      rw [periodStart_month, periodEnd_month, h12]
      rfl
    · unfold windowExpense
      rw [periodStart_month, periodEnd_month, h12]
      rfl
  · rw [if_neg h12]
    have hstop : minusOneSecond (midnightT ((StatisticsEngine.monthLoop
        (today.year : Int) ((today.month : Int) - (i : Int))).1.toNat,
          (StatisticsEngine.monthLoop (today.year : Int)
            ((today.month : Int) - (i : Int))).2.toNat + 1, 1)) =
        ⟨(StatisticsEngine.monthLoop (today.year : Int)
            ((today.month : Int) - (i : Int))).1.toNat,
          (StatisticsEngine.monthLoop (today.year : Int)
            ((today.month : Int) - (i : Int))).2.toNat,
          daysInMonth ((StatisticsEngine.monthLoop (today.year : Int)
            ((today.month : Int) - (i : Int))).1.toNat)
            ((StatisticsEngine.monthLoop (today.year : Int)
              ((today.month : Int) - (i : Int))).2.toNat),
          23, 59, 59, 0⟩ := by
      rw [minusOneSecond_midnight, prevDayT_month (by omega) (by omega)]
      simp
    rw [hstop, summary_get_all]
    refine ⟨_, rfl, ?_, ?_⟩
    · unfold windowIncome
      rw [periodStart_month, periodEnd_month]
    · unfold windowExpense
      rw [periodStart_month, periodEnd_month]

theorem mapM_option_some {α β : Type} (f : α → Option β) (g : α → β) :
    ∀ l : List α, (∀ a ∈ l, f a = some (g a)) → l.mapM f = some (l.map g) := by
  have haux : ∀ l : List α, (∀ a ∈ l, f a = some (g a)) →
      List.mapM' f l = some (l.map g) := by
    intro l
    induction l with
    | nil => intro _; rfl
    | cons a l ih =>
      intro h
      have ha := h a (List.mem_cons_self a l)
      have hl := ih fun b hb => h b (List.mem_cons_of_mem a hb)
      simp [List.mapM', ha, hl]
  intro l h
  rw [← List.mapM'_eq_mapM]
  exact haux l h

theorem trendOK_day_iff (today : DateTime) (i : Nat) :
    StatisticsEngine.trendOK today "day" i = true ↔
      i ≤ toRD today.ymd ∧ subDaysT today.ymd i ≠ (9999, 12, 31) := by
  unfold StatisticsEngine.trendOK
  rw [if_pos rfl]
  simp

theorem trendOK_week_iff (today : DateTime) (i : Nat) :
    StatisticsEngine.trendOK today "week" i = true ↔
      weekdayT today.ymd + 7 * i ≤ toRD today.ymd ∧
      toRD today.ymd - (weekdayT today.ymd + 7 * i) + 7 ≤ maxRD := by
  unfold StatisticsEngine.trendOK
  rw [if_neg (by decide), if_pos rfl]
  simp

theorem trendOK_month_iff (today : DateTime) (i : Nat) :
    StatisticsEngine.trendOK today "month" i = true ↔
      1 ≤ (StatisticsEngine.monthLoop (today.year : Int)
        ((today.month : Int) - (i : Int))).1 ∧
      (StatisticsEngine.monthLoop (today.year : Int)
        ((today.month : Int) - (i : Int))).1 ≤ 9999 ∧
      ((StatisticsEngine.monthLoop (today.year : Int)
          ((today.month : Int) - (i : Int))).2 ≠ 12 ∨
        (StatisticsEngine.monthLoop (today.year : Int)
          ((today.month : Int) - (i : Int))).1 + 1 ≤ 9999) := by
  unfold StatisticsEngine.trendOK
  rw [if_neg (by decide), if_neg (by decide)]
  simp [and_assoc]

theorem nextDayT_prevDayT {t : Nat × Nat × Nat} (hv : ValidT t) :
    nextDayT (prevDayT t) = t := by
  obtain ⟨y, m, d⟩ := t
  obtain ⟨hy, hm1, hm2, hd1, hd2⟩ := hv
  dsimp only at hy hm1 hm2 hd1 hd2
  by_cases hd : 1 < d
  · rw [prevDayT_mid hd, nextDayT_mid (by omega)]
    have hdd : d - 1 + 1 = d := by omega
    rw [hdd]
  · by_cases hm : 1 < m
    · rw [prevDayT_month hd hm]
      rw [nextDayT_month (lt_irrefl _) (by omega)]
      have hmm : m - 1 + 1 = m := by omega
      rw [hmm]
      have hdd : d = 1 := by omega
      rw [hdd]
    · rw [prevDayT_year hd hm]
      have h31 : daysInMonth (y - 1) 12 = 31 := rfl
      rw [nextDayT_year (by omega) (by omega)]
      have hyy : y - 1 + 1 = y := by omega
      rw [hyy]
      have hdd : d = 1 := by omega
      have hmm : m = 1 := by omega
      rw [hdd, hmm]

theorem addDaysT_succ_comm (t : Nat × Nat × Nat) :
    ∀ n, addDaysT t (n + 1) = addDaysT (nextDayT t) n := by
  intro n
  induction n with
  | zero => rfl
  | succ n ih =>
    show nextDayT (addDaysT t (n + 1)) = nextDayT (addDaysT (nextDayT t) n)
    rw [ih]

theorem addDaysT_subDaysT {t : Nat × Nat × Nat} (hv : ValidT t) :
    ∀ n, n ≤ toRD t → addDaysT (subDaysT t n) n = t := by
  intro n
  induction n with
  | zero => intro _; rfl
  | succ n ih =>
    intro hn
    obtain ⟨hrd, hvs⟩ := subDaysT_spec hv n (by omega)
    have hstep : subDaysT t (n + 1) = prevDayT (subDaysT t n) := rfl
    rw [hstep, addDaysT_succ_comm, nextDayT_prevDayT hvs]
    exact ih (by omega)

/-- A window containing no stored rows contributes zero income and expense. -/
theorem window_zero (db : DB) (a b : DateTime)
    (h : ∀ row ∈ db.rows, DataStorage.inDateRange (some a) (some b) row = false) :
    windowIncome db a b = 0 ∧ windowExpense db a b = 0 := by
  have hfil : db.rows.filter (DataStorage.inDateRange (some a) (some b)) = [] :=
    List.filter_eq_nil_iff.mpr (fun row hr => by rw [h row hr]; exact Bool.false_ne_true)
  constructor
  · unfold windowIncome
    rw [hfil]
    rfl
  · unfold windowExpense
    rw [hfil]
    rfl

/-- Uniform characterisation of one trend entry over the three period kinds. -/
theorem trendEntry_spec (today : DateTime) (db : DB) (period : String) (i : Nat)
    (hv : today.Valid)
    (hp : period = "day" ∨ period = "week" ∨ period = "month")
    (hOK : StatisticsEngine.trendOK today period i = true) :
    StatisticsEngine.trendEntry today db period i =
      some (StatisticsEngine.trendEntryVal today db period i) ∧
    (StatisticsEngine.trendEntryVal today db period i).income =
      windowIncome db (StatisticsEngine.periodStart today period i)
        (StatisticsEngine.periodEnd today period i) ∧
    (StatisticsEngine.trendEntryVal today db period i).expense =
      windowExpense db (StatisticsEngine.periodStart today period i)
        (StatisticsEngine.periodEnd today period i) := by
  have h : ∃ e, StatisticsEngine.trendEntry today db period i = some e ∧
      e.income = windowIncome db (StatisticsEngine.periodStart today period i)
        (StatisticsEngine.periodEnd today period i) ∧
      e.expense = windowExpense db (StatisticsEngine.periodStart today period i)
        (StatisticsEngine.periodEnd today period i) := by
    rcases hp with hp | hp | hp <;> subst hp
    · exact trendEntry_day today db i hv hOK
    · exact trendEntry_week today db i hv hOK
    · exact trendEntry_month today db i hv hOK
  obtain ⟨e, he, hinc, hexp⟩ := h
  have hval : StatisticsEngine.trendEntryVal today db period i = e := by
    unfold StatisticsEngine.trendEntryVal
    rw [he]
    rfl
  rw [hval, he]
  exact ⟨rfl, hinc, hexp⟩

/-- Larger back-offsets denote strictly earlier periods. -/
theorem periodStart_key_lt (today : DateTime) (period : String) (i j : Nat)
    (hv : today.Valid) (hp : period = "day" ∨ period = "week" ∨ period = "month")
    (hij : j < i)
    (hOKi : StatisticsEngine.trendOK today period i = true)
    (hOKj : StatisticsEngine.trendOK today period j = true) :
    DateTime.key (StatisticsEngine.periodStart today period i) <
      DateTime.key (StatisticsEngine.periodStart today period j) := by
  obtain ⟨hy1, hy2, hmo1, hmo2, hda1, hda2, hh, hmi, hs, hus⟩ := hv
  have hvt : ValidT today.ymd := ⟨hy1, hmo1, hmo2, hda1, hda2⟩
  rcases hp with hp | hp | hp <;> subst hp
  · rw [trendOK_day_iff] at hOKi hOKj
    obtain ⟨hi1, -⟩ := hOKi
    obtain ⟨hj1, -⟩ := hOKj
    obtain ⟨hrdi, hvi⟩ := subDaysT_spec hvt i hi1
    obtain ⟨hrdj, hvj⟩ := subDaysT_spec hvt j hj1
    have ei : StatisticsEngine.periodStart today "day" i =
        midnightT (subDaysT today.ymd i) := periodStart_day today i
    have ej : StatisticsEngine.periodStart today "day" j =
        midnightT (subDaysT today.ymd j) := periodStart_day today j
    rw [ei, ej]
    exact key_midnight_lt hvi hvj (by omega)
  · rw [trendOK_week_iff] at hOKi hOKj
    obtain ⟨hi1, -⟩ := hOKi
    obtain ⟨hj1, -⟩ := hOKj
    obtain ⟨hrdi, hvi⟩ := subDaysT_spec hvt (weekdayT today.ymd + 7 * i) hi1
    obtain ⟨hrdj, hvj⟩ := subDaysT_spec hvt (weekdayT today.ymd + 7 * j) hj1
    have ei : StatisticsEngine.periodStart today "week" i =
        midnightT (subDaysT today.ymd (weekdayT today.ymd + 7 * i)) :=
      periodStart_week today i
    have ej : StatisticsEngine.periodStart today "week" j =
        midnightT (subDaysT today.ymd (weekdayT today.ymd + 7 * j)) :=
      periodStart_week today j
    rw [ei, ej]
    exact key_midnight_lt hvi hvj (by omega)
  · rw [trendOK_month_iff] at hOKi hOKj
    obtain ⟨hYi1, hYi2, -⟩ := hOKi
    obtain ⟨hYj1, hYj2, -⟩ := hOKj
    obtain ⟨hMi1, hMi2, hEi⟩ := monthLoop_spec (today.year : Int)
      ((today.month : Int) - (i : Int)) (by omega)
    obtain ⟨hMj1, hMj2, hEj⟩ := monthLoop_spec (today.year : Int)
      ((today.month : Int) - (j : Int)) (by omega)
    rw [periodStart_month today i, periodStart_month today j]
    unfold midnightT DateTime.key
    dsimp only
    omega

/-- **C5** (corrected): when `today` is a valid timestamp and every one of the
`count` requested periods stays inside the representable calendar range,
`get_trend_data` returns exactly `count` entries — the entry at back-offset
`i` for `i = count-1, …, 0`.  Each entry's income and expense total exactly
the stored rows dated inside that period's window, so a period with no rows
appears with income 0 and expense 0 rather than being omitted; the periods
strictly increase chronologically along the returned list (oldest first);
and the final entry is the current period — today's own day for "day", the
Monday-started week containing today for "week", and the first of the
current month for "month".  (The representability hypothesis is necessary:
see the counterexample where the month loop steps below year 1.) -/
theorem trend_series_spec (today : DateTime) (db : DB) (period : String)
    (count : Nat) (hv : today.Valid)
    (hp : period = "day" ∨ period = "week" ∨ period = "month")
    (hOK : ∀ i, i < count → StatisticsEngine.trendOK today period i = true) :
    StatisticsEngine.get_trend_data today db period count =
      some (((List.range count).reverse).map
        (StatisticsEngine.trendEntryVal today db period)) ∧
    (((List.range count).reverse).map
        (StatisticsEngine.trendEntryVal today db period)).length = count ∧
    (∀ i, i < count →
      (StatisticsEngine.trendEntryVal today db period i).income =
        windowIncome db (StatisticsEngine.periodStart today period i)
          (StatisticsEngine.periodEnd today period i) ∧
      (StatisticsEngine.trendEntryVal today db period i).expense =
        windowExpense db (StatisticsEngine.periodStart today period i)
          (StatisticsEngine.periodEnd today period i)) ∧
    (∀ i, i < count →
      (∀ row ∈ db.rows, DataStorage.inDateRange
          (some (StatisticsEngine.periodStart today period i))
          (some (StatisticsEngine.periodEnd today period i)) row = false) →
      (StatisticsEngine.trendEntryVal today db period i).income = 0 ∧
      (StatisticsEngine.trendEntryVal today db period i).expense = 0) ∧
    (∀ i j, j < i → i < count →
      DateTime.key (StatisticsEngine.periodStart today period i) <
        DateTime.key (StatisticsEngine.periodStart today period j)) ∧
    (0 < count →
      (((List.range count).reverse).map
          (StatisticsEngine.trendEntryVal today db period)).getLast? =
        some (StatisticsEngine.trendEntryVal today db period 0)) ∧
    StatisticsEngine.periodDay today "day" 0 = today.ymd ∧
    addDaysT (StatisticsEngine.periodDay today "week" 0) (weekdayT today.ymd) =
      today.ymd ∧
    weekdayT today.ymd ≤ 6 ∧
    weekdayT (StatisticsEngine.periodDay today "week" 0) = 0 ∧
    StatisticsEngine.periodDay today "month" 0 = (today.year, today.month, 1) := by
  have hv' := hv
  obtain ⟨hy1, hy2, hmo1, hmo2, hda1, hda2, hh, hmi, hs, hus⟩ := hv'
  have hvt : ValidT today.ymd := ⟨hy1, hmo1, hmo2, hda1, hda2⟩
  have hw_le : weekdayT today.ymd ≤ toRD today.ymd := Nat.mod_le _ _
  have e_week : StatisticsEngine.periodDay today "week" 0 =
      subDaysT today.ymd (weekdayT today.ymd) := by
    rw [periodDay_week]
    simp [DateTime.ymd]
  refine ⟨?_, by simp, ?_, ?_, ?_, ?_, ?_, ?_, ?_, ?_, ?_⟩
  · unfold StatisticsEngine.get_trend_data
    refine mapM_option_some _ _ _ ?_
    intro a ha
    have hlt : a < count := by
      rw [List.mem_reverse, List.mem_range] at ha
      exact ha
    exact (trendEntry_spec today db period a hv hp (hOK a hlt)).1
  · intro i hi
    exact ⟨(trendEntry_spec today db period i hv hp (hOK i hi)).2.1,
      (trendEntry_spec today db period i hv hp (hOK i hi)).2.2⟩
  · intro i hi hz
    obtain ⟨-, hinc, hexp⟩ := trendEntry_spec today db period i hv hp (hOK i hi)
    obtain ⟨hz1, hz2⟩ := window_zero db _ _ hz
    exact ⟨hinc.trans hz1, hexp.trans hz2⟩
  · intro i j hji hic
    exact periodStart_key_lt today period i j hv hp hji (hOK i hic)
      (hOK j (by omega))
  · intro hc
    obtain ⟨k, rfl⟩ : ∃ k, count = k + 1 := ⟨count - 1, by omega⟩
    rw [List.range_succ_eq_map]
    simp [List.getLast?_concat]
  · rw [periodDay_day]
    rfl
  · rw [e_week]
    exact addDaysT_subDaysT hvt (weekdayT today.ymd) hw_le
  · have h7 : toRD today.ymd % 7 < 7 := Nat.mod_lt _ (by norm_num)
    show toRD today.ymd % 7 ≤ 6
    omega
  · obtain ⟨hrd, -⟩ := subDaysT_spec hvt (weekdayT today.ymd) hw_le
    rw [e_week]
    show toRD (subDaysT today.ymd (weekdayT today.ymd)) % 7 = 0
    rw [hrd]
    show (toRD today.ymd - toRD today.ymd % 7) % 7 = 0
    omega
  · rw [periodDay_month]
    have hml := monthLoop_spec (today.year : Int)
      ((today.month : Int) - ((0 : Nat) : Int)) (by omega)
    have hY : (StatisticsEngine.monthLoop (today.year : Int)
        ((today.month : Int) - ((0 : Nat) : Int))).1 = (today.year : Int) := by
      obtain ⟨h1, h2, h3⟩ := hml
      omega
    have hM : (StatisticsEngine.monthLoop (today.year : Int)
        ((today.month : Int) - ((0 : Nat) : Int))).2 = (today.month : Int) := by
      obtain ⟨h1, h2, h3⟩ := hml
      omega
    rw [hY, hM]
    simp

/-- Witness for C5: a 2-month trend from 2026-10-12 on an empty store. -/
theorem trend_series_spec_witness :
    DateTime.Valid ⟨2026, 10, 12, 9, 30, 0, 0⟩ ∧
    StatisticsEngine.get_trend_data ⟨2026, 10, 12, 9, 30, 0, 0⟩ ⟨1, []⟩
        "month" 2 =
      some (((List.range 2).reverse).map
        (StatisticsEngine.trendEntryVal ⟨2026, 10, 12, 9, 30, 0, 0⟩ ⟨1, []⟩
          "month")) :=
  ⟨by decide, (trend_series_spec ⟨2026, 10, 12, 9, 30, 0, 0⟩ ⟨1, []⟩ "month" 2
      (by decide) (Or.inr (Or.inr rfl)) (by decide)).1⟩

/-- Counterexample to C5 as stated: with today = 0001-01-01 (a valid
timestamp), a 2-month trend steps the month loop below year 1, where
`datetime(year=0, …)` raises, so `get_trend_data` aborts (modelled `none`)
instead of returning 2 entries. -/
theorem trend_series_underflow_cex :
    DateTime.Valid ⟨1, 1, 1, 0, 0, 0, 0⟩ ∧
    StatisticsEngine.get_trend_data ⟨1, 1, 1, 0, 0, 0, 0⟩ ⟨1, []⟩ "month" 2 =
      none :=
  ⟨by decide, rfl⟩
